import Mathlib

/-!
Verification development for the emulation core of this repository
(processor core, audio handoff queue, and cartridge bank-switching schemes).
Each C++ function used by a claim is translated into an executable Lean
definition; machine integers are modelled as `Nat` with explicit `% 2^w`
truncation exactly where the C++ types truncate.

The file is organised as definitions first (the embedding of the source),
then theorems (the claims and their supporting lemmas).
-/

set_option maxRecDepth 10000

/-! # Definitions -/

/-- Read element `i` of a list of bytes/words, defaulting to 0.  This models an
in-bounds C++ array access `arr[i]` (all accesses proved about are in bounds in
the source). -/
def lget (l : List Nat) (i : Nat) : Nat := l.getD i 0

/-! ## CartridgeDPCPlus random number generator (CartDPCPlus.cxx) -/

namespace CartridgeDPCPlus

/-- Truncation to 32 bits, as performed by `uInt32` arithmetic. -/
def u32 (x : Nat) : Nat := x % 2 ^ 32

/-- The rotation `(r >> 11) | (r << 21)` on `uInt32`, as it appears inside
`CartridgeDPCPlus::clockRandomNumberGenerator`. -/
def rotr11 (r : Nat) : Nat := (r >>> 11) ||| u32 (r <<< 21)

/-- The rotation `(r << 11) | (r >> 21)` on `uInt32`, as it appears inside
`CartridgeDPCPlus::priorClockRandomNumberGenerator`. -/
def rotl11 (r : Nat) : Nat := u32 (r <<< 11) ||| (r >>> 21)

/-- `CartridgeDPCPlus::clockRandomNumberGenerator`:
`myRandomNumber = ((myRandomNumber & (1<<10)) ? 0x10adab1e : 0x00) ^
((myRandomNumber >> 11) | (myRandomNumber << 21));` on `uInt32`. -/
def clockRandomNumberGenerator (r : Nat) : Nat :=
  (if r &&& (1 <<< 10) ≠ 0 then 0x10adab1e else 0x00) ^^^ rotr11 r

/-- `CartridgeDPCPlus::priorClockRandomNumberGenerator`:
`myRandomNumber = ((myRandomNumber & (1u<<31)) ?
((0x10adab1e^myRandomNumber) << 11) | ((0x10adab1e^myRandomNumber) >> 21) :
(myRandomNumber << 11) | (myRandomNumber >> 21));` on `uInt32`. -/
def priorClockRandomNumberGenerator (r : Nat) : Nat :=
  if r &&& (1 <<< 31) ≠ 0 then rotl11 (0x10adab1e ^^^ r) else rotl11 r

end CartridgeDPCPlus

/-! ## AudioQueue (common/AudioQueue.cxx)

Fragments are `Int16*` pointers in the source; they are modelled as their
offsets (in samples) into the single backing buffer `myFragmentBuffer`. -/

namespace AudioQueue

/-- Message of the exception thrown by `AudioQueue::enqueue` when the reserved
enqueue-side scratch fragment has already been handed out. -/
def enqueueEmptyMsg : String := "enqueue called empty"

/-- Message of the exception thrown by `AudioQueue::dequeue` when the reserved
dequeue-side scratch fragment has already been handed out. -/
def dequeueEmptyMsg : String := "dequeue called empty"

/-- The mutable state of an `AudioQueue`: the ring of fragment slots
(`myFragmentQueue`), `mySize`, `myNextFragment`, and the two reserved
bootstrap fragments (null pointers are modelled as `none`). -/
structure State where
  fragmentQueue : List Nat
  size : Nat
  nextFragment : Nat
  firstFragmentForEnqueue : Option Nat
  firstFragmentForDequeue : Option Nat
deriving DecidableEq, Repr

/-- `AudioQueue::AudioQueue(fragmentSize, capacity, isStereo, sampleRate)`:
slot `i` of the ring initially points at offset `i * sampleSize * fragmentSize`
of the backing buffer, and the two reserved fragments sit at offsets
`capacity * sampleSize * fragmentSize` and `(capacity+1) * sampleSize *
fragmentSize`. -/
def construct (fragmentSize capacity : Nat) (isStereo : Bool) : State :=
  let sampleSize := if isStereo then 2 else 1
  { fragmentQueue := (List.range capacity).map (fun i => i * sampleSize * fragmentSize)
    size := 0
    nextFragment := 0
    firstFragmentForEnqueue := some (capacity * sampleSize * fragmentSize)
    firstFragmentForDequeue := some ((capacity + 1) * sampleSize * fragmentSize) }

/-- `AudioQueue::enqueue(Int16* fragment)`. -/
def enqueue (q : State) (fragment : Option Nat) : Except String (Nat × State) :=
  match fragment with
  | none =>
    match q.firstFragmentForEnqueue with
    | none => .error enqueueEmptyMsg
    | some newFragment => .ok (newFragment, { q with firstFragmentForEnqueue := none })
  | some fragment =>
    let capacity := q.fragmentQueue.length
    let fragmentIndex := (q.nextFragment + q.size) % capacity
    let newFragment := lget q.fragmentQueue fragmentIndex
    let queue := q.fragmentQueue.set fragmentIndex fragment
    if q.size < capacity then
      .ok (newFragment, { q with fragmentQueue := queue, size := q.size + 1 })
    else
      .ok (newFragment, { q with fragmentQueue := queue,
                                 nextFragment := (q.nextFragment + 1) % capacity })

/-- `AudioQueue::dequeue(Int16* fragment)`; the source returns the null pointer
(modelled `none`) when the queue is empty. -/
def dequeue (q : State) (fragment : Option Nat) : Except String (Option Nat × State) :=
  if q.size = 0 then .ok (none, q)
  else
    match fragment, q.firstFragmentForDequeue with
    | none, none => .error dequeueEmptyMsg
    | none, some f =>
      .ok (some (lget q.fragmentQueue q.nextFragment),
        { q with fragmentQueue := q.fragmentQueue.set q.nextFragment f,
                 firstFragmentForDequeue := none,
                 size := q.size - 1,
                 nextFragment := (q.nextFragment + 1) % q.fragmentQueue.length })
    | some f, _ =>
      .ok (some (lget q.fragmentQueue q.nextFragment),
        { q with fragmentQueue := q.fragmentQueue.set q.nextFragment f,
                 size := q.size - 1,
                 nextFragment := (q.nextFragment + 1) % q.fragmentQueue.length })

/-- Enqueue a list of filled fragments in order (each call supplying a
fragment, as the steady-state producer does). -/
def enqueueAll (q : State) (fs : List Nat) : State :=
  fs.foldl (fun acc f =>
    match enqueue acc (some f) with
    | .ok (_, q2) => q2
    | .error _ => acc) q

/-- Dequeue `n` times, each call supplying a reusable buffer (offset 0),
collecting the yielded fragments in order together with the final state. -/
def drain : Nat → State → List Nat × State
  | 0, q => ([], q)
  | n + 1, q =>
    match dequeue q (some 0) with
    | .ok (some f, q2) =>
      let rest := drain n q2
      (f :: rest.fst, rest.snd)
    | .ok (none, q2) => ([], q2)
    | .error _ => ([], q)

/-- The `size` ring entries of `Q` starting at cursor `next`, wrapping modulo
`len`: the abstract FIFO contents, oldest first. -/
def ringList (Q : List Nat) (len size next : Nat) : List Nat :=
  (List.range size).map (fun i => lget Q ((next + i) % len))

/-- The abstract contents of the ring, oldest first: the `size` fragments
starting at `nextFragment`, wrapping modulo the capacity. -/
def toList (q : State) : List Nat :=
  ringList q.fragmentQueue q.fragmentQueue.length q.size q.nextFragment

/-- The structural invariant maintained by the source: the fill level never
exceeds the capacity and the read cursor stays inside the ring. -/
def Inv (q : State) : Prop :=
  q.size ≤ q.fragmentQueue.length ∧ q.nextFragment < q.fragmentQueue.length

/-- State of the capacity-1 AudioQueue of the C9 counterexample after
`enqueue(nullptr)` has handed out the enqueue-side scratch fragment. -/
def c9afterBootstrap : State :=
  { fragmentQueue := [0], size := 0, nextFragment := 0,
    firstFragmentForEnqueue := none, firstFragmentForDequeue := some 8 }

/-- State of the C9 counterexample queue after `enqueue` of fragment 999. -/
def c9afterFill : State :=
  { fragmentQueue := [999], size := 1, nextFragment := 0,
    firstFragmentForEnqueue := none, firstFragmentForDequeue := some 8 }

/-- State of the C9 counterexample queue after `dequeue(nullptr)`: the reserved
dequeue-side scratch fragment (offset 8) was swapped into the ring, and the
queued fragment 999 — not the scratch fragment — was returned. -/
def c9afterDrain : State :=
  { fragmentQueue := [8], size := 0, nextFragment := 0,
    firstFragmentForEnqueue := none, firstFragmentForDequeue := none }

end AudioQueue

/-! ## M6502 processor core (M6502.cxx)

`M6502.hxx`, `M6502.ins` (the macro-generated 256-entry instruction table) and
`DispatchResult.hxx` are not under src; the pieces taken from them are marked
"Modelled from the spec" below.  Debugger support (`DEBUGGER_SUPPORT`) is
compiled out, matching the plain build of M6502.cxx. -/

namespace M6502

/-- Modelled from the spec: the per-memory-access clock advance constant
`SYSTEM_CYCLES_PER_CPU` from the missing M6502.hxx ("advance the bus clock for
every access").  Its exact positive value does not affect the claims below. -/
def SYSTEM_CYCLES_PER_CPU : Nat := 1

/-- The M6502 register file (`A X Y SP IR PC`, six individual status flags,
with Z stored complemented as `notZ`), the four execution-status bits of
`myExecutionStatus`, access bookkeeping, and the attached `mySystem` modelled
as a flat byte memory. -/
structure State where
  A : Nat
  X : Nat
  Y : Nat
  SP : Nat
  IR : Nat
  PC : Nat
  flagN : Bool
  flagV : Bool
  flagB : Bool
  flagD : Bool
  flagI : Bool
  notZ : Bool
  flagC : Bool
  maskableInterrupt : Bool
  nonmaskableInterrupt : Bool
  fatalError : Bool
  stopExecution : Bool
  haltRequested : Bool
  sysCycles : Nat
  icycles : Nat
  numberOfDistinctAccesses : Nat
  lastAddress : Nat
  lastPeekAddress : Nat
  lastPokeAddress : Nat
  dataAddressForPoke : Nat
  mem : Nat → Nat

/-- Modelled from the spec: `M6502.hxx`'s `PS()` (header not under src) packs
the six individual status flags into the standard 6502 status byte
(N V 1 B D I Z C, bit 5 always set). -/
def State.PS (s : State) : Nat :=
  (if s.flagN then 0x80 else 0) + (if s.flagV then 0x40 else 0) + 0x20 +
  (if s.flagB then 0x10 else 0) + (if s.flagD then 0x08 else 0) +
  (if s.flagI then 0x04 else 0) + (if s.notZ then 0 else 0x02) +
  (if s.flagC then 0x01 else 0)

/-- `mySystem->poke(addr, value)` on the flat byte memory. -/
def updateMem (m : Nat → Nat) (a v : Nat) : Nat → Nat :=
  fun x => if x = a then v % 256 else m x

/-- `M6502::handleHalt`: runs the halt callback (external) and clears the
request; the net effect on the modelled state is clearing the flag. -/
def handleHalt (s : State) : State := { s with haltRequested := false }

/-- `M6502::peek(address, flags)` with debugger trap support compiled out:
distinct-access bookkeeping, clock advance, the `mySystem->peek`, and the
last-peek-address record.  Returns the byte read and the updated state. -/
def peek (s : State) (address : Nat) : Nat × State :=
  let s := handleHalt s
  let s := { s with
      numberOfDistinctAccesses :=
        if address = s.lastAddress then s.numberOfDistinctAccesses
        else s.numberOfDistinctAccesses + 1,
      lastAddress := address }
  let s := { s with sysCycles := s.sysCycles + SYSTEM_CYCLES_PER_CPU,
                    icycles := s.icycles + SYSTEM_CYCLES_PER_CPU }
  (s.mem address % 256, { s with lastPeekAddress := address })

/-- `M6502::interruptHandler`: handle a pending maskable (when I clear) or
non-maskable interrupt, pushing `(PC-1) >> 8`, `(PC-1) & 0x00ff` and
`PS() & ~0x10` via `mySystem->poke` at `0x0100 + SP--` (uInt8 wrap), loading
PC from the appropriate vector, and clearing the two interrupt request bits.
Returns the (address, byte) pairs poked, in order, with the new state. -/
def interruptHandler (s : State) : List (Nat × Nat) × State :=
  if s.maskableInterrupt = true ∧ s.flagI = false then
    let pcm1 := (s.PC + 0xFFFF) % 0x10000
    let b1 := (pcm1 >>> 8) % 256
    let b2 := pcm1 &&& 0x00FF
    let b3 := s.PS &&& 0xEF
    let a1 := 0x0100 + s.SP
    let a2 := 0x0100 + (s.SP + 255) % 256
    let a3 := 0x0100 + (s.SP + 254) % 256
    let mem1 := updateMem (updateMem (updateMem s.mem a1 b1) a2 b2) a3 b3
    ([(a1, b1), (a2, b2), (a3, b3)],
      { s with
          sysCycles := s.sysCycles + 7 * SYSTEM_CYCLES_PER_CPU,
          mem := mem1,
          SP := (s.SP + 253) % 256,
          flagD := false,
          flagI := true,
          PC := (mem1 0xFFFE % 256) ||| ((mem1 0xFFFF % 256) <<< 8),
          maskableInterrupt := false,
          nonmaskableInterrupt := false })
  else if s.nonmaskableInterrupt = true then
    let pcm1 := (s.PC + 0xFFFF) % 0x10000
    let b1 := (pcm1 >>> 8) % 256
    let b2 := pcm1 &&& 0x00FF
    let b3 := s.PS &&& 0xEF
    let a1 := 0x0100 + s.SP
    let a2 := 0x0100 + (s.SP + 255) % 256
    let a3 := 0x0100 + (s.SP + 254) % 256
    let mem1 := updateMem (updateMem (updateMem s.mem a1 b1) a2 b2) a3 b3
    ([(a1, b1), (a2, b2), (a3, b3)],
      { s with
          sysCycles := s.sysCycles + 7 * SYSTEM_CYCLES_PER_CPU,
          mem := mem1,
          SP := (s.SP + 253) % 256,
          flagD := false,
          PC := (mem1 0xFFFA % 256) ||| ((mem1 0xFFFB % 256) <<< 8),
          maskableInterrupt := false,
          nonmaskableInterrupt := false })
  else
    ([], { s with maskableInterrupt := false, nonmaskableInterrupt := false })

/-- Modelled from the spec: the status carried by `DispatchResult`
(DispatchResult.hxx is not under src): not yet set, ok, stopped by the
debugger, or fatal. -/
inductive DispatchStatus where
  | unset
  | ok
  | debugger
  | fatal
deriving DecidableEq, Repr

/-- Modelled from the spec: the result handed back to the caller of execute,
carrying the stopping status, the cycle count and a descriptive message. -/
structure DispatchResult where
  status : DispatchStatus
  cycles : Nat
  message : String
deriving DecidableEq, Repr

/-- Modelled from the spec: `DispatchResult::setOk(cycles)`. -/
def DispatchResult.setOk (r : DispatchResult) (c : Nat) : DispatchResult :=
  { r with status := .ok, cycles := c }

/-- Modelled from the spec: `DispatchResult::setFatal(cycles)`; the message
has already been set when the fatal exception was caught. -/
def DispatchResult.setFatal (r : DispatchResult) (c : Nat) : DispatchResult :=
  { r with status := .fatal, cycles := c }

/-- Modelled from the spec: `DispatchResult::setMessage`. -/
def DispatchResult.setMessage (r : DispatchResult) (m : String) : DispatchResult :=
  { r with message := m }

/-- Modelled from the spec: a dispatch result is a success unless it is fatal
or still unset. -/
def DispatchResult.isSuccess (r : DispatchResult) : Bool :=
  match r.status with
  | .ok => true
  | .debugger => true
  | _ => false

/-- A fresh `DispatchResult`. -/
def initialResult : DispatchResult := { status := .unset, cycles := 0, message := "" }

/-- The message of the `FatalEmulationError` raised by the `default:` arm of
the 256-entry opcode dispatch switch. -/
def invalidInstructionMsg : String := "invalid instruction"

/-- The effect of one decoded instruction on the processor state.  The
dispatch table itself is generated from `M6502.ins` (not under src), so the
execute loop is parameterised by it; `none` marks an opcode that is missing
from the table. -/
abbrev Instr : Type := State → State

/-- `!myExecutionStatus` negated: whether any execution-status bit is set. -/
def anyExecutionStatus (s : State) : Bool :=
  s.maskableInterrupt || s.nonmaskableInterrupt || s.fatalError || s.stopExecution

/-- The body of the try block of `M6502::_execute`: reset the per-instruction
bookkeeping, fetch the opcode at PC (incrementing PC with 16-bit wrap) and
dispatch on the table; an opcode missing from the table raises
`FatalEmulationError("invalid instruction")`, which the surrounding catch
turns into the fatal-error execution-status bit (the `Bool` result tells
whether an instruction was dispatched). -/
def fetchDispatch (table : Nat → Option Instr) (s : State) : State × Bool :=
  let s := { s with lastPeekAddress := 0, lastPokeAddress := 0, dataAddressForPoke := 0,
                    icycles := 0 }
  let p := peek s s.PC
  let s := { p.snd with PC := (p.snd.PC + 1) % 0x10000, IR := p.fst }
  match table p.fst with
  | some instr => (instr s, true)
  | none => ({ s with fatalError := true }, false)

/-- The inner while loop of `M6502::_execute`: run fetch-dispatch while no
execution-status bit is set and the local `currentCycles` variable `cur` is
below the budget.  `prev` is `previousCycles`, `cnt` counts successfully
dispatched instructions, and the explicit fuel bounds the iterations. -/
def execWhile (table : Nat → Option Instr) (budget prev : Nat) :
    Nat → State → DispatchResult → Nat → Nat → State × DispatchResult × Nat × Nat
  | 0, s, r, cnt, cur => (s, r, cnt, cur)
  | fuel + 1, s, r, cnt, cur =>
    if anyExecutionStatus s = false ∧ cur < budget * SYSTEM_CYCLES_PER_CPU then
      let p := fetchDispatch table s
      let r2 := if p.snd then r else r.setMessage invalidInstructionMsg
      let cnt2 := if p.snd then cnt + 1 else cnt
      let cur2 := p.fst.sysCycles - prev
      execWhile table budget prev fuel p.fst r2 cnt2 cur2
    else
      (s, r, cnt, cur)

/-- The outer `for(;;)` loop of `M6502::_execute`: run the inner while loop,
handle a pending interrupt at the instruction boundary, then return fatal /
ok according to the status bits and the consumed cycles. -/
def execOuter (table : Nat → Option Instr) (budget prev : Nat) :
    Nat → State → DispatchResult → Nat → Nat → DispatchResult × State × Nat
  | 0, s, r, cnt, _ => (r, s, cnt)
  | fuel + 1, s, r, cnt, cur =>
    let w := execWhile table budget prev (budget + 1) s r cnt cur
    let s2 := w.fst
    let r2 := w.snd.fst
    let cnt2 := w.snd.snd.fst
    let cur2 := w.snd.snd.snd
    let s3 := if s2.maskableInterrupt || s2.nonmaskableInterrupt then
        (interruptHandler s2).snd
      else s2
    if s3.fatalError = true then (r2.setFatal cur2, s3, cnt2)
    else if s3.stopExecution = true then (r2.setOk cur2, s3, cnt2)
    else if budget * SYSTEM_CYCLES_PER_CPU ≤ cur2 then (r2.setOk cur2, s3, cnt2)
    else execOuter table budget prev fuel s3 r2 cnt2 cur2

/-- `M6502::_execute(cycles, result)`: clear `myExecutionStatus`, record
`previousCycles`, and run the loop.  Returns the dispatch result, the final
state, and the number of successfully dispatched instructions. -/
def execute (table : Nat → Option Instr) (budget fuel : Nat) (s : State) :
    DispatchResult × State × Nat :=
  let s := { s with maskableInterrupt := false, nonmaskableInterrupt := false,
                    fatalError := false, stopExecution := false }
  execOuter table budget s.sysCycles fuel s initialResult 0 0

/-- Concrete processor state for the C1 counterexample: a pending maskable
interrupt at PC = 0x1234 with the I flag clear, SP = 0xFD, zeroed memory. -/
def c1state : State :=
  { A := 0, X := 0, Y := 0, SP := 0xFD, IR := 0, PC := 0x1234,
    flagN := false, flagV := false, flagB := false, flagD := false, flagI := false,
    notZ := false, flagC := false,
    maskableInterrupt := true, nonmaskableInterrupt := false,
    fatalError := false, stopExecution := false, haltRequested := false,
    sysCycles := 0, icycles := 0, numberOfDistinctAccesses := 0, lastAddress := 0,
    lastPeekAddress := 0, lastPokeAddress := 0, dataAddressForPoke := 0,
    mem := fun _ => 0 }

/-- Concrete processor state for the C2 witness: PC = 0, zeroed memory, no
pending interrupts. -/
def c2state : State :=
  { A := 0, X := 0, Y := 0, SP := 0xFD, IR := 0, PC := 0,
    flagN := false, flagV := false, flagB := false, flagD := false, flagI := false,
    notZ := false, flagC := false,
    maskableInterrupt := false, nonmaskableInterrupt := false,
    fatalError := false, stopExecution := false, haltRequested := false,
    sysCycles := 0, icycles := 0, numberOfDistinctAccesses := 0, lastAddress := 0,
    lastPeekAddress := 0, lastPokeAddress := 0, dataAddressForPoke := 0,
    mem := fun _ => 0 }

end M6502

/-! ## Serializer stream

Modelled from the spec (§6): `Serializer.hxx` is not under src.  Persisted
state is an ordered stream of typed primitives; `putX` appends one entry
(narrowing its argument exactly where the C++ parameter type narrows) and
`getX` consumes one entry of the matching type, failing on a mismatch.
Doubles are modelled exactly as rationals. -/

namespace Serial

/-- One typed primitive of the serializer stream. -/
inductive Entry where
  | byt : Nat → Entry
  | shrt : Nat → Entry
  | int32 : Nat → Entry
  | lng : Nat → Entry
  | dbl : Rat → Entry
  | bol : Bool → Entry
  | bytArr : List Nat → Entry
  | shrtArr : List Nat → Entry
  | intArr : List Nat → Entry
deriving DecidableEq, Repr

end Serial

/-! ## CartridgeMNetwork (CartMNetwork.cxx, CartMNetwork.hxx)

The page-access table lives in the System and is not part of the cartridge
state; `setAccess` calls therefore have no effect on the modelled state.
`peekRAM`/`pokeRAM` and `bankLocked` come from the missing Cart.hxx base:
modelled from the spec, `peekRAM` returns the RAM byte, `pokeRAM` stores the
byte, and `bankLocked` is an externally driven debugger flag. -/

namespace CartridgeMNetwork

/-- `BANK_SIZE` (CartMNetwork.hxx): 2K ROM/RAM bank. -/
def BANK_SIZE : Nat := 0x800

/-- `RAM_SIZE` (CartMNetwork.hxx): 1K + 4 x 256B of RAM. -/
def RAM_SIZE : Nat := 0x800

/-- The cartridge state: ROM image, RAM, the two segment slices
(`myCurrentSlice`), the 256-byte RAM bank (`myCurrentRAM`), the fixed RAM
slice index (`myRAMSlice`, set by `initialize` to `bankCount() - 1`), and the
bank-changed / bank-locked flags. -/
structure State where
  image : Nat → Nat
  mySize : Nat
  ram : List Nat
  currentSlice0 : Nat
  currentSlice1 : Nat
  currentRAM : Nat
  ramSlice : Nat
  bankChanged : Bool
  bankLocked : Bool

/-- `CartridgeMNetwork::bankCount()`: `mySize >> 11`. -/
def bankCount (s : State) : Nat := s.mySize >>> 11

/-- `CartridgeMNetwork::bank(slice)`: a no-op returning false when locked;
otherwise records the slice for segment 0 (the page remapping happens in the
System) and reports the change. -/
def bank (s : State) (slice : Nat) : Bool × State :=
  if s.bankLocked then (false, s)
  else (true, { s with currentSlice0 := slice, bankChanged := true })

/-- `CartridgeMNetwork::bankRAM(bank)`: a no-op when locked; otherwise records
the 256-byte RAM bank and marks the change. -/
def bankRAM (s : State) (b : Nat) : State :=
  if s.bankLocked then s
  else { s with currentRAM := b, bankChanged := true }

/-- Modelled from the spec: `CartridgeE7::checkSwitchBank` (the concrete
subclass is not under src), following the hotspot description documented in
CartMNetwork.hxx: accessing 0xFE0-0xFE6 selects the ROM slice for segment 0,
0xFE7 selects the RAM slice, and 0xFE8-0xFEB selects the 256-byte RAM bank. -/
def checkSwitchBank (s : State) (address : Nat) : State :=
  if 0x0FE0 ≤ address ∧ address ≤ 0x0FE6 then (bank s (address - 0x0FE0)).snd
  else if address = 0x0FE7 then (bank s s.ramSlice).snd
  else if 0x0FE8 ≤ address ∧ address ≤ 0x0FEB then bankRAM s (address - 0x0FE8)
  else s

/-- `CartridgeMNetwork::peek(address)`: check the hotspots, then read the 1K
RAM slice, the 256B RAM bank, or ROM through the slice of the addressed
segment. -/
def peek (s : State) (address : Nat) : Nat × State :=
  let address := address &&& 0x0FFF
  let s := checkSwitchBank s address
  if s.currentSlice0 = s.ramSlice ∧ address < BANK_SIZE / 2 then
    (lget s.ram (address &&& (BANK_SIZE / 2 - 1)), s)
  else if 0x0800 ≤ address ∧ address ≤ 0x08FF then
    (lget s.ram (1024 + (s.currentRAM <<< 8) + (address &&& 0x00FF)), s)
  else
    (s.image (((if address >>> 11 = 0 then s.currentSlice0 else s.currentSlice1) <<< 11) +
        (address &&& (BANK_SIZE - 1))) % 256, s)

/-- `CartridgeMNetwork::poke(address, value)`: check the hotspots; RAM writes
return true, anything else returns false. -/
def poke (s : State) (address v : Nat) : Bool × State :=
  let address := address &&& 0x0FFF
  let s := checkSwitchBank s address
  if s.currentSlice0 = s.ramSlice ∧ address < BANK_SIZE / 2 then
    (true, { s with ram := s.ram.set (address &&& (BANK_SIZE / 2 - 1)) (v % 256) })
  else if 0x0800 ≤ address ∧ address ≤ 0x08FF then
    let r2 := s.ram.set (1024 + (s.currentRAM <<< 8) + (address &&& 0x00FF)) (v % 256)
    (true, { s with ram := r2 })
  else
    (false, s)

/-- `CartridgeMNetwork::getBank(addr)`: the slice of the 2K segment holding
`addr`. -/
def getBank (s : State) (addr : Nat) : Nat :=
  if (addr &&& 0xFFF) >>> 11 = 0 then s.currentSlice0 else s.currentSlice1

/-- `CartridgeMNetwork::install(system)` (state effects only): segment 1 is
pointed at the last ROM slice, then the default RAM bank 0 and the start bank
are installed. -/
def install (s : State) (startB : Nat) : State :=
  let s := { s with currentSlice1 := s.ramSlice }
  let s := bankRAM s 0
  (bank s startB).snd

/-- One cartridge-facing operation, for stating the C8 invariant. -/
inductive Op where
  | bankOp : Nat → Op
  | bankRAMOp : Nat → Op
  | peekOp : Nat → Op
  | pokeOp : Nat → Nat → Op

/-- Apply one operation to the cartridge state. -/
def applyOp (s : State) : Op → State
  | .bankOp n => (bank s n).snd
  | .bankRAMOp n => bankRAM s n
  | .peekOp a => (peek s a).snd
  | .pokeOp a v => (poke s a v).snd

/-- Apply a sequence of operations. -/
def applyOps (s : State) (ops : List Op) : State := ops.foldl applyOp s

/-- `CartridgeMNetwork::save`: the two slices, the RAM bank, and the RAM. -/
def save (s : State) : List Serial.Entry :=
  [Serial.Entry.shrtArr [s.currentSlice0, s.currentSlice1],
   Serial.Entry.shrt s.currentRAM,
   Serial.Entry.bytArr s.ram]

/-- `CartridgeMNetwork::load`: read the persisted fields back (failing on a
format mismatch), then re-install the previously used RAM bank and segment-0
slice via `bankRAM`/`bank`. -/
def load (s : State) (stream : List Serial.Entry) : Option State :=
  match stream with
  | Serial.Entry.shrtArr [s0, s1] :: Serial.Entry.shrt cr :: Serial.Entry.bytArr ram :: _ =>
    if ram.length = RAM_SIZE then
      let s := { s with currentSlice0 := s0, currentSlice1 := s1, currentRAM := cr, ram := ram }
      some (bank (bankRAM s s.currentRAM) s.currentSlice0).snd
    else none
  | _ => none

/-- Concrete 16K M-Network cartridge state for the C8 witness. -/
def mnet8state : State :=
  { image := fun _ => 0, mySize := 16384, ram := List.replicate 2048 0,
    currentSlice0 := 0, currentSlice1 := 0, currentRAM := 0, ramSlice := 7,
    bankChanged := false, bankLocked := false }

/-- Concrete operation sequence for the C8 witness. -/
def c8ops : List Op := [Op.bankOp 3, Op.peekOp 0x1FE2, Op.pokeOp 0x1800 7, Op.bankRAMOp 2]

end CartridgeMNetwork

/-! ## Cartridge3EPlus (Cart3EPlus.cxx)

The constants below come from the missing Cart3EPlus.hxx; they are modelled
from the spec (eight independently addressable 512-byte sub-banks, 1K ROM
banks in two 512B halves, RAM banks with read and write ports 0x200 apart,
undefined sub-banks marked in the bank-in-use table) and fixed by their uses
in Cart3EPlus.cxx. -/

namespace Cartridge3EPlus

/-- Marker for a never-initialised sub-bank. -/
def BANK_UNDEFINED : Nat := 0x8000

/-- TIA-space hotspot selecting a RAM bank. -/
def BANK_SWITCH_HOTSPOT_RAM : Nat := 0x3E

/-- TIA-space hotspot selecting a ROM bank. -/
def BANK_SWITCH_HOTSPOT_ROM : Nat := 0x3F

/-- Bits of the bank number inside a hotspot value. -/
def BANK_BITS : Nat := 6

/-- Mask of the bank number inside a hotspot value. -/
def BIT_BANK_MASK : Nat := (1 <<< BANK_BITS) - 1

/-- Flag marking the upper (write-port / upper-half) slot of a bank value. -/
def BITMASK_LOWERUPPER : Nat := 0x100

/-- Flag marking a RAM (as opposed to ROM) bank value. -/
def BITMASK_ROMRAM : Nat := 0x200

/-- log2 of the 1K ROM bank size. -/
def ROM_BANK_TO_POWER : Nat := 10

/-- log2 of the 512B RAM bank size. -/
def RAM_BANK_TO_POWER : Nat := 9

/-- 512-byte RAM bank size. -/
def RAM_BANK_SIZE : Nat := 1 <<< RAM_BANK_TO_POWER

/-- 1K ROM bank size. -/
def ROM_BANK_SIZE : Nat := 1 <<< ROM_BANK_TO_POWER

/-- Total RAM: 4 banks x 512B x (read+write halves backed once) = 4K. -/
def RAM_TOTAL_SIZE : Nat := RAM_BANK_SIZE * 4 * 2

/-- Byte-offset mask inside a 512B RAM bank. -/
def BITMASK_RAM_BANK : Nat := RAM_BANK_SIZE - 1

/-- The cartridge state: ROM image and size, 4K RAM, the eight-entry
`bankInUse` reverse-lookup table, and the bank-changed / bank-locked flags. -/
structure State where
  image : Nat → Nat
  mySize : Nat
  ram : List Nat
  bankInUse : List Nat
  bankChanged : Bool
  bankLocked : Bool

/-- `Cartridge3EPlus::bankCount()`: `mySize >> 10`. -/
def bankCount (s : State) : Nat := s.mySize >>> 10

/-- The `bankInUse` slot written by `bankRAMSlot`/`bankROMSlot` for a bank
value: `bankNumber * 2` plus one for the upper half. -/
def slotIndex (bank : Nat) : Nat :=
  ((bank >>> BANK_BITS) &&& 3) * 2 + (if bank &&& BITMASK_LOWERUPPER ≠ 0 then 1 else 0)

/-- `Cartridge3EPlus::bankRAMSlot(bank)` (state effects only): record the bank
value in its `bankInUse` slot; the read/write page mapping lives in the
System. -/
def bankRAMSlot (s : State) (bank : Nat) : State :=
  { s with bankInUse := s.bankInUse.set (slotIndex bank) bank }

/-- `Cartridge3EPlus::bankROMSlot(bank)` (state effects only): record the bank
value in its `bankInUse` slot. -/
def bankROMSlot (s : State) (bank : Nat) : State :=
  { s with bankInUse := s.bankInUse.set (slotIndex bank) bank }

/-- `Cartridge3EPlus::bankRAM(bank)`: a no-op returning false when locked;
otherwise map the RAM bank's read and write slots and report the change. -/
def bankRAM (s : State) (bank : Nat) : Bool × State :=
  if s.bankLocked then (false, s)
  else
    let s := bankRAMSlot s ((bank % 256) ||| BITMASK_ROMRAM)
    let s := bankRAMSlot s ((bank % 256) ||| BITMASK_ROMRAM ||| BITMASK_LOWERUPPER)
    (true, { s with bankChanged := true })

/-- `Cartridge3EPlus::bankROM(bank)`: a no-op returning false when locked;
otherwise map the ROM bank's two 512B halves and report the change. -/
def bankROM (s : State) (bank : Nat) : Bool × State :=
  if s.bankLocked then (false, s)
  else
    let s := bankROMSlot s ((bank % 256) ||| 0)
    let s := bankROMSlot s ((bank % 256) ||| BITMASK_LOWERUPPER)
    (true, { s with bankChanged := true })

/-- `Cartridge3EPlus::getBank(addr)`: the `bankInUse` entry of the 1K slice
holding `addr`. -/
def getBank (s : State) (addr : Nat) : Nat :=
  lget s.bankInUse ((addr &&& 0xFFF) >>> 10)

/-- `Cartridge3EPlus::peek(address)`: an undefined sub-bank reads as a
pseudo-random byte (`rand`), a RAM sub-bank reads its RAM byte, and anything
else returns the initialised 0 (ROM reads are direct-mapped in the System and
do not reach `peek`). -/
def peek (s : State) (rand : Nat) (address : Nat) : Nat × State :=
  let address := address &&& 0x0FFF
  let bank := (address >>> (ROM_BANK_TO_POWER - 1)) &&& 7
  let imageBank := lget s.bankInUse bank
  if imageBank = BANK_UNDEFINED then (rand % 256, s)
  else if imageBank &&& BITMASK_ROMRAM ≠ 0 then
    let ramBank := imageBank &&& BIT_BANK_MASK
    let offset := (ramBank <<< RAM_BANK_TO_POWER) + (address &&& BITMASK_RAM_BANK)
    (lget s.ram offset, s)
  else (0, s)

/-- `Cartridge3EPlus::poke(address, value)`: the un-mirrored bank-switch
hotspots (in TIA space), the claimed TIA range (whose poke result is OR-ed
in), and writes into a RAM sub-bank. -/
def poke (s : State) (tiaPoke : Nat → Nat → Bool) (address v : Nat) : Bool × State :=
  let pr := if address = BANK_SWITCH_HOTSPOT_RAM then bankRAM s v
    else if address = BANK_SWITCH_HOTSPOT_ROM then bankROM s v
    else (false, s)
  let changed := pr.fst
  let s := pr.snd
  if address &&& 0x1000 = 0 then
    (changed || tiaPoke address v, s)
  else
    let bankNumber := (address >>> RAM_BANK_TO_POWER) &&& 7
    let whichBankIsThere := lget s.bankInUse bankNumber
    if whichBankIsThere &&& BITMASK_ROMRAM ≠ 0 then
      let byteOffset := address &&& BITMASK_RAM_BANK
      let baseAddress := ((whichBankIsThere &&& BIT_BANK_MASK) <<< RAM_BANK_TO_POWER) + byteOffset
      (true, { s with ram := s.ram.set baseAddress (v % 256) })
    else (changed, s)

/-- One step of `Cartridge3EPlus::initializeBankState`: re-install the bank
recorded for one 512B slot (undefined slots only get page accessors). -/
def initSlot (s : State) (b : Nat) : State :=
  let entry := lget s.bankInUse b
  if entry = BANK_UNDEFINED then s
  else if entry &&& BITMASK_ROMRAM ≠ 0 then bankRAMSlot s entry
  else bankROMSlot s entry

/-- `Cartridge3EPlus::initializeBankState()`: switch in each 512B slot. -/
def initializeBankState (s : State) : State := (List.range 8).foldl initSlot s

/-- `Cartridge3EPlus::save`: the `bankInUse` table and the RAM. -/
def save (s : State) : List Serial.Entry :=
  [Serial.Entry.shrtArr s.bankInUse, Serial.Entry.bytArr s.ram]

/-- `Cartridge3EPlus::load`: read the table and RAM back (failing on a
format mismatch), then re-derive the page mappings via
`initializeBankState`. -/
def load (s : State) (stream : List Serial.Entry) : Option State :=
  match stream with
  | Serial.Entry.shrtArr binu :: Serial.Entry.bytArr ram :: _ =>
    if binu.length = 8 ∧ ram.length = RAM_TOTAL_SIZE then
      some (initializeBankState { s with bankInUse := binu, ram := ram })
    else none
  | _ => none

end Cartridge3EPlus

/-! ## CartridgeDPCPlus full state (CartDPCPlus.cxx)

`myProgramImage` (the 24K program ROM view at offset 0xC00 of the 32K image)
is modelled as the `rom` function; `myDisplayImage` is `myDPCRAM + 0xC00` and
`myFrequencyImage` is `myDisplayImage + 0x1000`, so display reads/writes index
`dpcRAM` at `0xC00 + x` and frequency reads at `0x1C00 + x`.  The Thumbulator
(ARM emulator, not under src) is a parameter `thumb`; `bankLocked` comes from
the missing Cart.hxx base (an externally driven debugger flag).  The double
`myFractionalClocks` is modelled exactly as a rational. -/

namespace CartridgeDPCPlus

/-- The DPC+ cartridge state: program ROM, 8K Harmony RAM, the data-fetcher
registers, music state, the LFSR register, clock bookkeeping and the bank
offset. -/
structure State where
  rom : Nat → Nat
  dpcRAM : List Nat
  tops : List Nat
  bottoms : List Nat
  counters : List Nat
  fractionalCounters : List Nat
  fractionalIncrements : List Nat
  fastFetch : Bool
  ldaImmediate : Bool
  parameter : List Nat
  parameterPointer : Nat
  musicCounters : List Nat
  musicFrequencies : List Nat
  musicWaveforms : List Nat
  randomNumber : Nat
  audioCycles : Nat
  fractionalClocks : Rat
  armCycles : Nat
  bankOffset : Nat
  fractionalLowMask : Nat
  bankChanged : Bool
  bankLocked : Bool

/-- `CartridgeDPCPlus::bank(bank)`: a no-op returning false when locked;
otherwise record `myBankOffset = bank << 12` (the page remapping lives in the
System) and report the change. -/
def bank (s : State) (b : Nat) : Bool × State :=
  if s.bankLocked then (false, s)
  else (true, { s with bankOffset := b <<< 12, bankChanged := true })

/-- `CartridgeDPCPlus::getBank()`. -/
def getBank (s : State) : Nat := s.bankOffset >>> 12

/-- `CartridgeDPCPlus::bankCount()`. -/
def bankCount : Nat := 6

/-- `CartridgeDPCPlus::updateMusicModeDataFetchers()`: advance the music
counters by the whole DPC+ OSC clocks elapsed since the last update, keeping
the fractional remainder (`uInt32` cycle difference of `uInt64` counters;
the double arithmetic is modelled on rationals). -/
def updateMusicModeDataFetchers (sysCycles : Nat) (s : State) : State :=
  let cycles : Nat := (sysCycles % 2 ^ 64 + 2 ^ 64 - s.audioCycles % 2 ^ 64) % 2 ^ 64 % 2 ^ 32
  let s := { s with audioCycles := sysCycles }
  let clocks : Rat :=
    (20000 * (cycles : Rat)) / (119319166666667 / 100000000 : Rat) + s.fractionalClocks
  let wholeClocks : Nat := clocks.floor.toNat % 2 ^ 32
  let s := { s with fractionalClocks := clocks - (wholeClocks : Rat) }
  if wholeClocks > 0 then
    let mc2 := (List.range 3).foldl
      (fun mc x => mc.set x ((lget mc x + lget s.musicFrequencies x * wholeClocks) % 2 ^ 32))
      s.musicCounters
    { s with musicCounters := mc2 }
  else s

/-- `CartridgeDPCPlus::callFunction(value)`: parameter-pointer reset, the two
copy loops, and the ARM call (`myThumbEmulator->run`, modelled by the `thumb`
parameter after `myARMCycles` is brought up to date; the fatal-trap path of a
failed run aborts the poke and is not modelled). -/
def callFunction (thumb : State → State) (sysCycles : Nat) (s : State) (value : Nat) :
    State :=
  let ROMdata := (lget s.parameter 1 <<< 8) + lget s.parameter 0
  if value = 0 then { s with parameterPointer := 0 }
  else if value = 1 then
    let cnt := lget s.parameter 3
    let dst := lget s.counters (lget s.parameter 2 &&& 0x7)
    let ram := (List.range cnt).foldl
      (fun ram i => ram.set (0xC00 + dst + i) (s.rom (ROMdata + i) % 256)) s.dpcRAM
    { s with dpcRAM := ram, parameterPointer := 0 }
  else if value = 2 then
    let cnt := lget s.parameter 3
    let dst := lget s.counters (lget s.parameter 2)
    let ram := (List.range cnt).foldl
      (fun ram i => ram.set (0xC00 + dst + i) (lget s.parameter 0 % 256)) s.dpcRAM
    { s with dpcRAM := ram, parameterPointer := 0 }
  else if value = 254 ∨ value = 255 then
    thumb { s with armCycles := sysCycles }
  else s

/-- `CartridgeDPCPlus::peek(address)`: the bank-locked early return, the
fast-fetch LDA-immediate redirection, the 0x00-0x27 read registers (random
number generator, amplitude, data fetchers with their windowed/fractional
variants and flags), and the 0xFF6-0xFFB bank-switch hotspots. -/
def peek (sysCycles : Nat) (s : State) (address : Nat) : Nat × State :=
  let address := address &&& 0x0FFF
  let peekvalue := s.rom (s.bankOffset + address) % 256
  if s.bankLocked then (peekvalue, s)
  else
    let address :=
      if s.fastFetch ∧ s.ldaImmediate ∧ peekvalue < 0x0028 then peekvalue else address
    let s := { s with ldaImmediate := false }
    if address < 0x0028 then
      let index := address &&& 0x07
      let fn := (address >>> 3) &&& 0x07
      let top := lget s.tops index % 256
      let bot := lget s.bottoms index % 256
      let flag :=
        if (top + 256 - (lget s.counters index &&& 0x00FF)) % 256 >
            (top + 256 - bot) % 256 then 0xFF else 0
      if fn = 0 then
        if index = 0 then
          let s := { s with randomNumber := clockRandomNumberGenerator s.randomNumber }
          (s.randomNumber &&& 0xFF, s)
        else if index = 1 then
          let s := { s with randomNumber := priorClockRandomNumberGenerator s.randomNumber }
          (s.randomNumber &&& 0xFF, s)
        else if index = 2 then ((s.randomNumber >>> 8) &&& 0xFF, s)
        else if index = 3 then ((s.randomNumber >>> 16) &&& 0xFF, s)
        else if index = 4 then ((s.randomNumber >>> 24) &&& 0xFF, s)
        else if index = 5 then
          let s := updateMusicModeDataFetchers sysCycles s
          let i :=
            lget s.dpcRAM (0xC00 + (lget s.musicWaveforms 0 <<< 5) +
              (lget s.musicCounters 0 >>> 27)) +
            lget s.dpcRAM (0xC00 + (lget s.musicWaveforms 1 <<< 5) +
              (lget s.musicCounters 1 >>> 27)) +
            lget s.dpcRAM (0xC00 + (lget s.musicWaveforms 2 <<< 5) +
              (lget s.musicCounters 2 >>> 27))
          (i % 256, s)
        else (0, s)
      else if fn = 1 then
        let c2 := s.counters.set index ((lget s.counters index + 1) &&& 0x0FFF)
        (lget s.dpcRAM (0xC00 + lget s.counters index), { s with counters := c2 })
      else if fn = 2 then
        let c2 := s.counters.set index ((lget s.counters index + 1) &&& 0x0FFF)
        (lget s.dpcRAM (0xC00 + lget s.counters index) &&& flag, { s with counters := c2 })
      else if fn = 3 then
        let fc2 := s.fractionalCounters.set index
          ((lget s.fractionalCounters index + lget s.fractionalIncrements index) &&& 0x0FFFFF)
        (lget s.dpcRAM (0xC00 + (lget s.fractionalCounters index >>> 8)),
         { s with fractionalCounters := fc2 })
      else if fn = 4 then
        if index ≤ 3 then (flag, s) else (0, s)
      else (0, s)
    else
      let s :=
        if address = 0x0FF6 then (bank s 0).snd
        else if address = 0x0FF7 then (bank s 1).snd
        else if address = 0x0FF8 then (bank s 2).snd
        else if address = 0x0FF9 then (bank s 3).snd
        else if address = 0x0FFA then (bank s 4).snd
        else if address = 0x0FFB then (bank s 5).snd
        else s
      let s := if s.fastFetch then { s with ldaImmediate := peekvalue = 0xA9 } else s
      (peekvalue, s)

/-- `CartridgeDPCPlus::poke(address, value)`: the 0x28-0x7F write registers
(fractional pointers, window tops/bottoms, data pointers, control registers
including `callFunction`, random-number writes, note registers, push/write
fetchers) and the 0xFF6-0xFFB bank-switch hotspots; always returns false. -/
def poke (thumb : State → State) (sysCycles : Nat) (s : State) (address value : Nat) :
    Bool × State :=
  let address := address &&& 0x0FFF
  let value := value % 256
  if 0x0028 ≤ address ∧ address < 0x0080 then
    let index := address &&& 0x07
    let fn := ((address - 0x28) >>> 3) &&& 0x0F
    let s :=
      if fn = 0 then
        let fc2 := s.fractionalCounters.set index
          ((lget s.fractionalCounters index &&& s.fractionalLowMask) ||| (value <<< 8))
        { s with fractionalCounters := fc2 }
      else if fn = 1 then
        let fc2 := s.fractionalCounters.set index
          (((value &&& 0x0F) <<< 16) ||| (lget s.fractionalCounters index &&& 0x00FFFF))
        { s with fractionalCounters := fc2 }
      else if fn = 2 then
        let fc2 := s.fractionalCounters.set index (lget s.fractionalCounters index &&& 0x0FFF00)
        { s with fractionalIncrements := s.fractionalIncrements.set index value,
                 fractionalCounters := fc2 }
      else if fn = 3 then { s with tops := s.tops.set index value }
      else if fn = 4 then { s with bottoms := s.bottoms.set index value }
      else if fn = 5 then
        let c2 := s.counters.set index ((lget s.counters index &&& 0x0F00) ||| value)
        { s with counters := c2 }
      else if fn = 6 then
        if index = 0 then { s with fastFetch := value = 0 }
        else if index = 1 then
          if s.parameterPointer < 8 then
            { s with parameter := s.parameter.set s.parameterPointer value,
                     parameterPointer := s.parameterPointer + 1 }
          else s
        else if index = 2 then callFunction thumb sysCycles s value
        else if index = 5 ∨ index = 6 ∨ index = 7 then
          { s with musicWaveforms := s.musicWaveforms.set (index - 5) (value &&& 0x7F) }
        else s
      else if fn = 7 then
        let c2 := ((lget s.counters index % 0x10000 + 0xFFFF) % 0x10000) &&& 0x0FFF
        { s with counters := s.counters.set index c2,
                 dpcRAM := s.dpcRAM.set (0xC00 + c2) value }
      else if fn = 8 then
        let c2 := s.counters.set index
          (((value &&& 0x0F) <<< 8) ||| (lget s.counters index &&& 0x00FF))
        { s with counters := c2 }
      else if fn = 9 then
        if index = 0 then { s with randomNumber := 0x2B435044 }
        else if index = 1 then
          { s with randomNumber := (s.randomNumber &&& 0xFFFFFF00) ||| value }
        else if index = 2 then
          { s with randomNumber := (s.randomNumber &&& 0xFFFF00FF) ||| (value <<< 8) }
        else if index = 3 then
          { s with randomNumber := (s.randomNumber &&& 0xFF00FFFF) ||| (value <<< 16) }
        else if index = 4 then
          { s with randomNumber := (s.randomNumber &&& 0x00FFFFFF) ||| (value <<< 24) }
        else if index = 5 ∨ index = 6 ∨ index = 7 then
          let mf2 := s.musicFrequencies.set (index - 5)
            (lget s.dpcRAM (0x1C00 + (value <<< 2)) +
             (lget s.dpcRAM (0x1C00 + (value <<< 2) + 1) <<< 8) +
             (lget s.dpcRAM (0x1C00 + (value <<< 2) + 2) <<< 16) +
             (lget s.dpcRAM (0x1C00 + (value <<< 2) + 3) <<< 24))
          { s with musicFrequencies := mf2 }
        else s
      else if fn = 0x0A then
        { s with dpcRAM := s.dpcRAM.set (0xC00 + lget s.counters index) value,
                 counters := s.counters.set index ((lget s.counters index + 1) &&& 0x0FFF) }
      else s
    (false, s)
  else
    let s :=
      if address = 0x0FF6 then (bank s 0).snd
      else if address = 0x0FF7 then (bank s 1).snd
      else if address = 0x0FF8 then (bank s 2).snd
      else if address = 0x0FF9 then (bank s 3).snd
      else if address = 0x0FFA then (bank s 4).snd
      else if address = 0x0FFB then (bank s 5).snd
      else s
    (false, s)

/-- `CartridgeDPCPlus::save`: the persisted fields, in stream order
(`putShort(myBankOffset)` narrows the `uInt32` offset to 16 bits). -/
def save (s : State) : List Serial.Entry :=
  [Serial.Entry.shrt (s.bankOffset % 65536),
   Serial.Entry.bytArr s.dpcRAM,
   Serial.Entry.bytArr s.tops,
   Serial.Entry.bytArr s.bottoms,
   Serial.Entry.shrtArr s.counters,
   Serial.Entry.intArr s.fractionalCounters,
   Serial.Entry.bytArr s.fractionalIncrements,
   Serial.Entry.bol s.fastFetch,
   Serial.Entry.bol s.ldaImmediate,
   Serial.Entry.bytArr s.parameter,
   Serial.Entry.intArr s.musicCounters,
   Serial.Entry.intArr s.musicFrequencies,
   Serial.Entry.shrtArr s.musicWaveforms,
   Serial.Entry.int32 s.randomNumber,
   Serial.Entry.lng s.audioCycles,
   Serial.Entry.dbl s.fractionalClocks,
   Serial.Entry.lng s.armCycles]

/-- `CartridgeDPCPlus::load`: read the persisted fields back in order
(failing on a format mismatch), then go to the recorded bank via
`bank(myBankOffset >> 12)`. -/
def load (s : State) (stream : List Serial.Entry) : Option State :=
  match stream with
  | Serial.Entry.shrt bo :: Serial.Entry.bytArr ram :: Serial.Entry.bytArr tops ::
      Serial.Entry.bytArr bottoms :: Serial.Entry.shrtArr counters ::
      Serial.Entry.intArr fracCounters :: Serial.Entry.bytArr fracIncrements ::
      Serial.Entry.bol ff :: Serial.Entry.bol lda :: Serial.Entry.bytArr param ::
      Serial.Entry.intArr mc :: Serial.Entry.intArr mf :: Serial.Entry.shrtArr mw ::
      Serial.Entry.int32 rnd :: Serial.Entry.lng ac :: Serial.Entry.dbl fc ::
      Serial.Entry.lng armc :: _ =>
    if ram.length = 8192 ∧ tops.length = 8 ∧ bottoms.length = 8 ∧ counters.length = 8 ∧
        fracCounters.length = 8 ∧ fracIncrements.length = 8 ∧ param.length = 8 ∧
        mc.length = 3 ∧ mf.length = 3 ∧ mw.length = 3 then
      let s := { s with bankOffset := bo, dpcRAM := ram, tops := tops, bottoms := bottoms,
                        counters := counters, fractionalCounters := fracCounters,
                        fractionalIncrements := fracIncrements, fastFetch := ff,
                        ldaImmediate := lda, parameter := param, musicCounters := mc,
                        musicFrequencies := mf, musicWaveforms := mw, randomNumber := rnd,
                        audioCycles := ac, fractionalClocks := fc, armCycles := armc }
      some (bank s (s.bankOffset >>> 12)).snd
    else none
  | _ => none

/-- A concrete DPC+ state (the post-reset register values, bank 5, zeroed
RAM), used by the witnesses and the C7 counterexample. -/
def dpcBaseState : State :=
  { rom := fun _ => 0, dpcRAM := List.replicate 8192 0,
    tops := List.replicate 8 0, bottoms := List.replicate 8 0,
    counters := List.replicate 8 0, fractionalCounters := List.replicate 8 0,
    fractionalIncrements := List.replicate 8 0,
    fastFetch := false, ldaImmediate := false,
    parameter := List.replicate 8 0, parameterPointer := 0,
    musicCounters := List.replicate 3 0, musicFrequencies := List.replicate 3 0,
    musicWaveforms := List.replicate 3 0,
    randomNumber := 0x2B435044, audioCycles := 0, fractionalClocks := 0,
    armCycles := 0, bankOffset := 0x5000, fractionalLowMask := 0x0F00FF,
    bankChanged := false, bankLocked := false }

/-- The same concrete DPC+ state with the debugger bank lock engaged, for the
C10 witness. -/
def dpcLockedState : State := { dpcBaseState with bankLocked := true }

end CartridgeDPCPlus

/-! ## Concrete cartridge states for witnesses and counterexamples -/

/-- A concrete locked M-Network state for the C6 witness. -/
def mnetLockedState : CartridgeMNetwork.State :=
  { CartridgeMNetwork.mnet8state with bankLocked := true }

/-- A concrete 16K 3E+ cartridge state with two ROM banks, one RAM bank and
two undefined sub-banks, whose bank-in-use entries each encode their own
slot (the reachability invariant maintained by the slot functions). -/
def e3pBaseState : Cartridge3EPlus.State :=
  { image := fun _ => 0, mySize := 16384, ram := List.replicate 4096 0,
    bankInUse := [0, 0x100, 0x241, 0x341, 0x8000, 0x8000, 0xC2, 0x1C3],
    bankChanged := false, bankLocked := false }

/-- The same 3E+ state with the debugger bank lock engaged. -/
def e3pLockedState : Cartridge3EPlus.State := { e3pBaseState with bankLocked := true }

/-! # Theorems -/

theorem lget_set_self (l : List Nat) (i : Nat) (v : Nat) (h : i < l.length) :
    lget (l.set i v) i = v := by
  induction l generalizing i with
  | nil => simp at h
  | cons a t ih =>
    cases i with
    | zero => simp [lget]
    | succ j => simpa [lget, List.getD] using ih j (by simpa using h)

theorem lget_set_ne (l : List Nat) (i j : Nat) (v : Nat) (h : i ≠ j) :
    lget (l.set i v) j = lget l j := by
  induction l generalizing i j with
  | nil => simp [lget]
  | cons a t ih =>
    cases i with
    | zero =>
      cases j with
      | zero => exact absurd rfl h
      | succ k => simp [lget, List.getD]
    | succ i0 =>
      cases j with
      | zero => simp [lget, List.getD]
      | succ k => simpa [lget, List.getD] using ih i0 k (by omega)

theorem lset_lget (l : List Nat) (i : Nat) (h : i < l.length) :
    l.set i (lget l i) = l := by
  induction l generalizing i with
  | nil => simp
  | cons a t ih =>
    cases i with
    | zero => simp [lget]
    | succ j => simpa [lget, List.getD] using ih j (by simpa using h)

/-- Adding distinct offsets below the modulus to a common base keeps residues
distinct. -/
theorem add_mod_index_ne (len next i j : Nat) (hi : i < len) (hj : j < len)
    (hne : i ≠ j) : (next + i) % len ≠ (next + j) % len := by
  intro he
  have h2 : i ≡ j [MOD len] := Nat.ModEq.add_left_cancel' next he
  rw [Nat.ModEq, Nat.mod_eq_of_lt hi, Nat.mod_eq_of_lt hj] at h2
  exact hne h2

/-- Moving the ring cursor forward by `0 < k < len` steps lands elsewhere. -/
theorem wrap_ne (len next k : Nat) (hnx : next < len) (hk0 : 0 < k) (hk : k < len) :
    (next + k) % len ≠ next := by
  intro he
  have h0 : (next + 0) % len = next := by
    rw [Nat.add_zero, Nat.mod_eq_of_lt hnx]
  exact add_mod_index_ne len next k 0 hk (by omega) (by omega) (he.trans h0.symm)

/-! ## CartridgeDPCPlus LFSR theorems (claim C4) -/

namespace CartridgeDPCPlus

theorem testBit_ge_32 {r : Nat} (h : r < 2 ^ 32) {j : Nat} (hj : 32 ≤ j) :
    r.testBit j = false :=
  Nat.testBit_lt_two_pow (lt_of_lt_of_le h (Nat.pow_le_pow_right (by norm_num) hj))

theorem rotr11_lt_two_pow (r : Nat) (h : r < 2 ^ 32) : rotr11 r < 2 ^ 32 := by
  have h1 : u32 (r <<< 21) < 2 ^ 32 := Nat.mod_lt _ (by norm_num)
  have h2 : r >>> 11 < 2 ^ 32 := by
    rw [Nat.shiftRight_eq_div_pow]
    exact lt_of_le_of_lt (Nat.div_le_self r (2 ^ 11)) h
  exact Nat.or_lt_two_pow h2 h1

theorem rotl11_rotr11 (r : Nat) (h : r < 2 ^ 32) : rotl11 (rotr11 r) = r := by
  have hb : ∀ j, 32 ≤ j → r.testBit j = false := fun j hj => testBit_ge_32 h hj
  apply Nat.eq_of_testBit_eq
  intro i
  rcases Nat.lt_or_ge i 32 with hi | hi
  · simp only [rotl11, rotr11, u32, Nat.testBit_or, Nat.testBit_mod_two_pow,
      Nat.testBit_shiftLeft, Nat.testBit_shiftRight]
    interval_cases i <;> simp [hb]
  · have h1 : (rotr11 r).testBit (21 + i) = false := by
      apply Nat.testBit_lt_two_pow
      calc rotr11 r < 2 ^ 32 := rotr11_lt_two_pow r h
        _ ≤ 2 ^ (21 + i) := Nat.pow_le_pow_right (by norm_num) (by omega)
    simp only [rotl11, u32, Nat.testBit_or, Nat.testBit_mod_two_pow,
      Nat.testBit_shiftLeft, h1, Bool.or_false]
    have h3 : decide (i < 32) = false := by simp; omega
    simp [h3, hb i hi, h1]

theorem testBit_rotr11_31 (r : Nat) (h : r < 2 ^ 32) :
    (rotr11 r).testBit 31 = r.testBit 10 := by
  have h42 : r.testBit 42 = false := testBit_ge_32 h (by norm_num)
  rw [rotr11, u32, Nat.testBit_or, Nat.testBit_mod_two_pow,
    Nat.testBit_shiftLeft, Nat.testBit_shiftRight]
  norm_num [h42]

theorem and_shift_ne_iff (r k : Nat) : r &&& (1 <<< k) ≠ 0 ↔ r.testBit k := by
  rw [Nat.one_shiftLeft, Nat.and_two_pow]
  cases hrk : r.testBit k <;> simp [hrk]

theorem clock_lt_two_pow (r : Nat) (h : r < 2 ^ 32) :
    clockRandomNumberGenerator r < 2 ^ 32 := by
  unfold clockRandomNumberGenerator
  apply Nat.xor_lt_two_pow _ (rotr11_lt_two_pow r h)
  split <;> norm_num

theorem prior_clock (r : Nat) (h : r < 2 ^ 32) :
    priorClockRandomNumberGenerator (clockRandomNumberGenerator r) = r := by
  have hK31 : (0x10adab1e : Nat).testBit 31 = false := by decide
  by_cases h10 : r.testBit 10
  · have hcond : r &&& (1 <<< 10) ≠ 0 := (and_shift_ne_iff r 10).2 h10
    have hclock : clockRandomNumberGenerator r = 0x10adab1e ^^^ rotr11 r := by
      unfold clockRandomNumberGenerator
      rw [if_pos hcond]
    have hbit : (0x10adab1e ^^^ rotr11 r).testBit 31 = true := by
      rw [Nat.testBit_xor, hK31, testBit_rotr11_31 r h, h10]
      rfl
    have hcond2 : (0x10adab1e ^^^ rotr11 r) &&& (1 <<< 31) ≠ 0 :=
      (and_shift_ne_iff _ 31).2 hbit
    rw [hclock]
    unfold priorClockRandomNumberGenerator
    rw [if_pos hcond2, ← Nat.xor_assoc, Nat.xor_self, Nat.zero_xor]
    exact rotl11_rotr11 r h
  · have hcond : ¬ r &&& (1 <<< 10) ≠ 0 := fun hc => h10 ((and_shift_ne_iff r 10).1 hc)
    have hclock : clockRandomNumberGenerator r = rotr11 r := by
      unfold clockRandomNumberGenerator
      rw [if_neg hcond, Nat.zero_xor]
    have hbit : (rotr11 r).testBit 31 = false := by
      rw [testBit_rotr11_31 r h]
      exact Bool.eq_false_iff.2 h10
    have hcond2 : ¬ rotr11 r &&& (1 <<< 31) ≠ 0 := fun hc =>
      (Bool.eq_false_iff.1 hbit) ((and_shift_ne_iff _ 31).1 hc)
    rw [hclock]
    unfold priorClockRandomNumberGenerator
    rw [if_neg hcond2]
    exact rotl11_rotr11 r h

theorem iterate_clock_lt (n r : Nat) (h : r < 2 ^ 32) :
    clockRandomNumberGenerator^[n] r < 2 ^ 32 := by
  induction n generalizing r with
  | zero => simpa using h
  | succ m ih =>
    rw [Function.iterate_succ_apply]
    exact ih _ (clock_lt_two_pow r h)

/-- C4: for the DPC+ 32-bit LFSR, clocking forward n times and then clocking
backward (inverse) n times restores exactly the prior register value, for every
n and every non-zero 32-bit register value. -/
theorem c4_lfsr_forward_backward (n r : Nat) (h32 : r < 2 ^ 32) (hnz : r ≠ 0) :
    priorClockRandomNumberGenerator^[n] (clockRandomNumberGenerator^[n] r) = r := by
  induction n generalizing r with
  | zero => rfl
  | succ m ih =>
    rw [Function.iterate_succ_apply', Function.iterate_succ_apply]
    calc priorClockRandomNumberGenerator
          (priorClockRandomNumberGenerator^[m]
            (clockRandomNumberGenerator^[m] (clockRandomNumberGenerator r)))
        = priorClockRandomNumberGenerator (clockRandomNumberGenerator r) := by
          by_cases hz : clockRandomNumberGenerator r = 0
          · rw [hz]
            congr 1
            have hfix : clockRandomNumberGenerator 0 = 0 := by decide
            have hpfix : priorClockRandomNumberGenerator 0 = 0 := by decide
            rw [Function.iterate_fixed hfix m]
            exact Function.iterate_fixed hpfix m
          · rw [ih (clockRandomNumberGenerator r) (clock_lt_two_pow r h32) hz]
      _ = r := prior_clock r h32

/-- Witness for C4 at a concrete seed (the DPC+ reset seed) and n = 3. -/
theorem c4_lfsr_forward_backward_witness :
    priorClockRandomNumberGenerator^[3] (clockRandomNumberGenerator^[3] 0x2B435044) =
      0x2B435044 :=
  c4_lfsr_forward_backward 3 0x2B435044 (by norm_num) (by norm_num)

end CartridgeDPCPlus

/-! ## AudioQueue theorems (claims C3 and C9) -/

namespace AudioQueue

theorem enqueue_some_notfull (q : State) (f : Nat)
    (hlt : q.size < q.fragmentQueue.length) :
    enqueue q (some f) =
      .ok (lget q.fragmentQueue ((q.nextFragment + q.size) % q.fragmentQueue.length),
        { q with
            fragmentQueue :=
              q.fragmentQueue.set ((q.nextFragment + q.size) % q.fragmentQueue.length) f,
            size := q.size + 1 }) := by
  simp [enqueue, hlt]

theorem enqueue_some_full (q : State) (f : Nat)
    (hge : ¬ q.size < q.fragmentQueue.length) :
    enqueue q (some f) =
      .ok (lget q.fragmentQueue ((q.nextFragment + q.size) % q.fragmentQueue.length),
        { q with
            fragmentQueue :=
              q.fragmentQueue.set ((q.nextFragment + q.size) % q.fragmentQueue.length) f,
            nextFragment := (q.nextFragment + 1) % q.fragmentQueue.length }) := by
  simp [enqueue, hge]

theorem dequeue_some_pos (q : State) (r : Nat) (hpos : q.size ≠ 0) :
    dequeue q (some r) =
      .ok (some (lget q.fragmentQueue q.nextFragment),
        { q with fragmentQueue := q.fragmentQueue.set q.nextFragment r,
                 size := q.size - 1,
                 nextFragment := (q.nextFragment + 1) % q.fragmentQueue.length }) := by
  simp [dequeue, hpos]

theorem ringList_snoc (Q : List Nat) (len size next f : Nat)
    (hlen : Q.length = len) (hsz : size < len) (hnx : next < len) :
    ringList (Q.set ((next + size) % len) f) len (size + 1) next =
      ringList Q len size next ++ [f] := by
  unfold ringList
  rw [List.range_succ, List.map_append]
  congr 1
  · apply List.map_congr_left
    intro i hi
    have hi2 : i < size := List.mem_range.mp hi
    exact lget_set_ne _ _ _ _ (add_mod_index_ne len next size i hsz (by omega) (by omega))
  · simp only [List.map_cons, List.map_nil]
    have hidx : (next + size) % len < Q.length := by
      rw [hlen]
      exact Nat.mod_lt _ (by omega)
    rw [lget_set_self _ _ _ hidx]

theorem ringList_shift (Q : List Nat) (len next f : Nat)
    (hlen : Q.length = len) (hnx : next < len) (hlen0 : 0 < len) :
    ringList (Q.set next f) len len ((next + 1) % len) =
      (ringList Q len len next).drop 1 ++ [f] := by
  obtain ⟨n, rfl⟩ : ∃ n, len = n + 1 := ⟨len - 1, by omega⟩
  have hL : ringList (Q.set next f) (n + 1) (n + 1) ((next + 1) % (n + 1)) =
      (List.range n).map (fun k => lget Q ((next + 1 + k) % (n + 1))) ++ [f] := by
    unfold ringList
    rw [List.range_succ, List.map_append]
    congr 1
    · apply List.map_congr_left
      intro k hk
      have hk2 : k < n := List.mem_range.mp hk
      rw [Nat.mod_add_mod]
      have hne : (next + 1 + k) % (n + 1) ≠ next := by
        rw [show next + 1 + k = next + (1 + k) from by omega]
        exact wrap_ne (n + 1) next (1 + k) hnx (by omega) (by omega)
      exact lget_set_ne _ _ _ _ (fun he => hne he.symm)
    · simp only [List.map_cons, List.map_nil]
      rw [Nat.mod_add_mod]
      rw [show next + 1 + n = next + (n + 1) from by omega]
      rw [Nat.add_mod_right, Nat.mod_eq_of_lt hnx]
      have hnxQ : next < Q.length := by
        rw [hlen]
        exact hnx
      rw [lget_set_self _ _ _ hnxQ]
  have hR : (ringList Q (n + 1) (n + 1) next).drop 1 =
      (List.range n).map (fun k => lget Q ((next + 1 + k) % (n + 1))) := by
    unfold ringList
    rw [List.range_succ_eq_map]
    simp only [List.map_cons, List.map_map, List.drop_succ_cons, List.drop_zero]
    apply List.map_congr_left
    intro k hk
    simp only [Function.comp_apply, Nat.succ_eq_add_one]
    rw [show next + (k + 1) = next + 1 + k from by omega]
  rw [hL, hR]

theorem ringList_cons (Q : List Nat) (len size next r : Nat)
    (hsz0 : size ≠ 0) (hsz : size ≤ len) (hnx : next < len) :
    ringList Q len size next =
      lget Q next :: ringList (Q.set next r) len (size - 1) ((next + 1) % len) := by
  obtain ⟨m, rfl⟩ : ∃ m, size = m + 1 := ⟨size - 1, by omega⟩
  simp only [Nat.add_sub_cancel]
  unfold ringList
  rw [List.range_succ_eq_map]
  simp only [List.map_cons, List.map_map]
  congr 1
  · rw [Nat.add_zero, Nat.mod_eq_of_lt hnx]
  · apply List.map_congr_left
    intro k hk
    have hk2 : k < m := List.mem_range.mp hk
    simp only [Function.comp_apply, Nat.succ_eq_add_one]
    rw [Nat.mod_add_mod]
    have hne : (next + 1 + k) % len ≠ next := by
      rw [show next + 1 + k = next + (1 + k) from by omega]
      exact wrap_ne len next (1 + k) hnx (by omega) (by omega)
    rw [lget_set_ne _ _ _ _ (fun he => hne he.symm)]
    rw [show next + (k + 1) = next + 1 + k from by omega]

theorem toList_enqueue_notfull (q : State) (f : Nat)
    (hsz : q.size < q.fragmentQueue.length)
    (hnx : q.nextFragment < q.fragmentQueue.length) :
    toList { q with
        fragmentQueue :=
          q.fragmentQueue.set ((q.nextFragment + q.size) % q.fragmentQueue.length) f,
        size := q.size + 1 } = toList q ++ [f] := by
  simp only [toList, List.length_set]
  exact ringList_snoc q.fragmentQueue q.fragmentQueue.length q.size q.nextFragment f
    rfl hsz hnx

theorem toList_enqueue_full (q : State) (f : Nat)
    (hsize : q.size = q.fragmentQueue.length)
    (hnx : q.nextFragment < q.fragmentQueue.length) :
    toList { q with
        fragmentQueue :=
          q.fragmentQueue.set ((q.nextFragment + q.size) % q.fragmentQueue.length) f,
        nextFragment := (q.nextFragment + 1) % q.fragmentQueue.length } =
      (toList q).drop 1 ++ [f] := by
  have hlen0 : 0 < q.fragmentQueue.length := by omega
  have hidx : (q.nextFragment + q.size) % q.fragmentQueue.length = q.nextFragment := by
    rw [hsize, Nat.add_mod_right, Nat.mod_eq_of_lt hnx]
  simp only [toList, List.length_set]
  rw [hidx, hsize]
  exact ringList_shift q.fragmentQueue q.fragmentQueue.length q.nextFragment f
    rfl hnx hlen0

theorem toList_dequeue (q : State) (r : Nat) (hpos : q.size ≠ 0)
    (hsz : q.size ≤ q.fragmentQueue.length)
    (hnx : q.nextFragment < q.fragmentQueue.length) :
    toList q =
      lget q.fragmentQueue q.nextFragment ::
        toList { q with fragmentQueue := q.fragmentQueue.set q.nextFragment r,
                        size := q.size - 1,
                        nextFragment := (q.nextFragment + 1) % q.fragmentQueue.length } := by
  simp only [toList, List.length_set]
  exact ringList_cons q.fragmentQueue q.fragmentQueue.length q.size q.nextFragment r
    hpos hsz hnx

theorem drain_toList : ∀ (n : Nat) (q : State), Inv q → q.size = n →
    (drain n q).fst = toList q ∧ (drain n q).snd.size = 0 := by
  intro n
  induction n with
  | zero =>
    intro q hInv hsz
    constructor
    · have : toList q = [] := by
        unfold toList
        rw [hsz]
        rfl
      rw [this]
      rfl
    · simpa [drain] using hsz
  | succ m ih =>
    intro q hInv hsz
    obtain ⟨hle, hnx⟩ := hInv
    have hpos : q.size ≠ 0 := by omega
    have hdq := dequeue_some_pos q 0 hpos
    have hlen0 : 0 < q.fragmentQueue.length := by omega
    set q2 : State :=
      { q with fragmentQueue := q.fragmentQueue.set q.nextFragment 0,
               size := q.size - 1,
               nextFragment := (q.nextFragment + 1) % q.fragmentQueue.length } with hq2
    have hInv2 : Inv q2 := by
      constructor
      · simp only [hq2, List.length_set]
        omega
      · simp only [hq2, List.length_set]
        exact Nat.mod_lt _ hlen0
    have hsz2 : q2.size = m := by
      simp only [hq2]
      omega
    obtain ⟨ihfst, ihsnd⟩ := ih q2 hInv2 hsz2
    have hstep : drain (m + 1) q =
        (lget q.fragmentQueue q.nextFragment :: (drain m q2).fst, (drain m q2).snd) := by
      conv_lhs => rw [drain]
      rw [hdq]
    constructor
    · rw [hstep]
      rw [toList_dequeue q 0 hpos hle hnx, ← hq2]
      rw [ihfst]
    · rw [hstep]
      exact ihsnd

theorem enqueueAll_cons (q : State) (f : Nat) (fs : List Nat) :
    enqueueAll q (f :: fs) =
      enqueueAll (match enqueue q (some f) with
        | .ok (_, q2) => q2
        | .error _ => q) fs := by
  rfl

theorem enqueueAll_notfull : ∀ (fs : List Nat) (q : State), Inv q →
    q.size + fs.length ≤ q.fragmentQueue.length →
    toList (enqueueAll q fs) = toList q ++ fs ∧
    Inv (enqueueAll q fs) ∧
    (enqueueAll q fs).size = q.size + fs.length ∧
    (enqueueAll q fs).fragmentQueue.length = q.fragmentQueue.length ∧
    (enqueueAll q fs).nextFragment = q.nextFragment := by
  intro fs
  induction fs with
  | nil =>
    intro q hInv hle
    exact ⟨by simp [enqueueAll], hInv, by simp [enqueueAll], rfl, rfl⟩
  | cons f rest ih =>
    intro q hInv hle
    obtain ⟨hszle, hnx⟩ := hInv
    have hlt : q.size < q.fragmentQueue.length := by
      simp only [List.length_cons] at hle
      omega
    have henq := enqueue_some_notfull q f hlt
    set q1 : State :=
      { q with
          fragmentQueue :=
            q.fragmentQueue.set ((q.nextFragment + q.size) % q.fragmentQueue.length) f,
          size := q.size + 1 } with hq1
    have hstep : enqueueAll q (f :: rest) = enqueueAll q1 rest := by
      rw [enqueueAll_cons, henq]
    have hInv1 : Inv q1 := by
      constructor
      · simp only [hq1, List.length_set]
        omega
      · simp only [hq1, List.length_set]
        exact hnx
    have hle1 : q1.size + rest.length ≤ q1.fragmentQueue.length := by
      simp only [hq1, List.length_set, List.length_cons] at hle ⊢
      omega
    obtain ⟨ih1, ih2, ih3, ih4, ih5⟩ := ih q1 hInv1 hle1
    refine ⟨?_, by rwa [hstep], ?_, ?_, ?_⟩
    · rw [hstep, ih1, hq1, toList_enqueue_notfull q f hlt hnx]
      simp
    · rw [hstep, ih3]
      simp only [hq1, List.length_cons]
      omega
    · rw [hstep, ih4]
      simp only [hq1, List.length_set]
    · rw [hstep, ih5]

/-- C3: for an AudioQueue of any (positive) capacity c, enqueueing c+1 filled
fragments into a fresh (empty, cursor-0) queue and then dequeuing repeatedly
yields exactly c fragments, in insertion order, with the oldest
(first-enqueued) fragment dropped; dequeuing from an empty queue returns null
and leaves the queue unchanged. -/
theorem c3_overflow_drop_oldest (c : Nat) (hc : 0 < c) (q0 : State) (fs : List Nat)
    (hcap : q0.fragmentQueue.length = c) (hsz : q0.size = 0) (hnx : q0.nextFragment = 0)
    (hfs : fs.length = c + 1) :
    (drain c (enqueueAll q0 fs)).fst = fs.drop 1 ∧
    (drain c (enqueueAll q0 fs)).fst.length = c ∧
    (drain c (enqueueAll q0 fs)).snd.size = 0 ∧
    (∀ (q : State) (frag : Option Nat), q.size = 0 → dequeue q frag = .ok (none, q)) := by
  have hInv0 : Inv q0 := by
    constructor
    · omega
    · omega
  have hsplit : fs = fs.take c ++ fs.drop c := (List.take_append_drop c fs).symm
  have htlen : (fs.take c).length = c := by
    rw [List.length_take]
    omega
  have hdlen : (fs.drop c).length = 1 := by
    rw [List.length_drop]
    omega
  obtain ⟨d, hd⟩ := List.length_eq_one.mp hdlen
  have hfold : enqueueAll q0 fs = enqueueAll (enqueueAll q0 (fs.take c)) (fs.drop c) := by
    conv_lhs => rw [hsplit]
    unfold enqueueAll
    rw [List.foldl_append]
  obtain ⟨h1, hInv1, hsz1, hlen1, hnx1⟩ :=
    enqueueAll_notfull (fs.take c) q0 hInv0 (by omega)
  have htoList0 : toList q0 = [] := by
    unfold toList
    rw [hsz]
    rfl
  set q1 := enqueueAll q0 (fs.take c) with hq1def
  have hsize1 : q1.size = q1.fragmentQueue.length := by omega
  have hfull : ¬ q1.size < q1.fragmentQueue.length := by omega
  have hnx1lt : q1.nextFragment < q1.fragmentQueue.length := by
    rw [hnx1, hlen1, hcap]
    omega
  have henq := enqueue_some_full q1 d hfull
  set q2 : State :=
    { q1 with
        fragmentQueue :=
          q1.fragmentQueue.set ((q1.nextFragment + q1.size) % q1.fragmentQueue.length) d,
        nextFragment := (q1.nextFragment + 1) % q1.fragmentQueue.length } with hq2
  have hstage2 : enqueueAll q1 (fs.drop c) = q2 := by
    rw [hd]
    unfold enqueueAll
    simp only [List.foldl_cons, List.foldl_nil]
    rw [henq]
  have htoList2 : toList q2 = (fs.take c).drop 1 ++ [d] := by
    rw [hq2, toList_enqueue_full q1 d hsize1 hnx1lt, h1, htoList0]
    simp
  have hInv2 : Inv q2 := by
    constructor
    · simp only [hq2, List.length_set]
      omega
    · simp only [hq2, List.length_set]
      exact Nat.mod_lt _ (by omega)
  have hsz2 : q2.size = c := by
    simp only [hq2]
    omega
  obtain ⟨hdr1, hdr2⟩ := drain_toList c q2 hInv2 hsz2
  have hyield : (drain c q2).fst = fs.drop 1 := by
    rw [hdr1, htoList2, ← hd]
    rw [← List.drop_append_of_le_length (by omega)]
    rw [← hsplit]
  refine ⟨?_, ?_, ?_, ?_⟩
  · rw [hfold, hstage2]
    exact hyield
  · rw [hfold, hstage2, hyield, List.length_drop]
    omega
  · rw [hfold, hstage2]
    exact hdr2
  · intro q frag hq0
    simp [dequeue, hq0]

/-- Witness for C3 at capacity 2 with fragments 10, 11, 12: the drain yields
11, 12 (the oldest fragment 10 was dropped). -/
theorem c3_overflow_drop_oldest_witness :
    (drain 2 (enqueueAll (construct 1 2 false) [10, 11, 12])).fst = [11, 12] ∧
    (drain 2 (enqueueAll (construct 1 2 false) [10, 11, 12])).snd.size = 0 := by
  have h := c3_overflow_drop_oldest 2 (by norm_num) (construct 1 2 false) [10, 11, 12]
    (by decide) (by decide) (by decide) (by decide)
  exact ⟨h.1, h.2.2.1⟩

/-- C9 counterexample: on a freshly constructed capacity-1 queue (fragment
size 4, mono), after the enqueue-side bootstrap and one real enqueue of
fragment 999, `dequeue(nullptr)` returns the queued fragment 999, not the
reserved dequeue-side scratch fragment (which sits at offset 8 and is merely
swapped into the ring). -/
theorem c9_counterexample :
    enqueue (construct 4 1 false) none = .ok (4, c9afterBootstrap) ∧
    enqueue c9afterBootstrap (some 999) = .ok (0, c9afterFill) ∧
    dequeue c9afterFill none = .ok (some 999, c9afterDrain) ∧
    (construct 4 1 false).firstFragmentForDequeue = some 8 ∧ (999 : Nat) ≠ 8 := by
  refine ⟨?_, ?_, ?_, ?_, by decide⟩ <;> rfl

/-- C9 (amended): enqueue with no fragment hands out the reserved enqueue-side
scratch fragment exactly once and then throws; dequeue with no fragment on a
non-empty queue consumes the reserved dequeue-side scratch fragment exactly
once as the swap-in replacement (returning the front queued fragment) and then
throws; on a fresh queue with positive fragment size the two reserved
fragments are distinct buffers. -/
theorem c9_bootstrap_fragments (q : State) (f : Nat) :
    (q.firstFragmentForEnqueue = some f →
      enqueue q none = .ok (f, { q with firstFragmentForEnqueue := none })) ∧
    (q.firstFragmentForEnqueue = none → enqueue q none = .error enqueueEmptyMsg) ∧
    (q.size ≠ 0 → q.firstFragmentForDequeue = some f →
      dequeue q none = .ok (some (lget q.fragmentQueue q.nextFragment),
        { q with fragmentQueue := q.fragmentQueue.set q.nextFragment f,
                 firstFragmentForDequeue := none,
                 size := q.size - 1,
                 nextFragment := (q.nextFragment + 1) % q.fragmentQueue.length })) ∧
    (q.size ≠ 0 → q.firstFragmentForDequeue = none →
      dequeue q none = .error dequeueEmptyMsg) ∧
    (∀ (fragmentSize capacity : Nat) (isStereo : Bool), 0 < fragmentSize →
      (construct fragmentSize capacity isStereo).firstFragmentForEnqueue ≠
        (construct fragmentSize capacity isStereo).firstFragmentForDequeue) := by
  refine ⟨?_, ?_, ?_, ?_, ?_⟩
  · intro h
    simp [enqueue, h]
  · intro h
    simp [enqueue, h]
  · intro hpos h
    simp [dequeue, hpos, h]
  · intro hpos h
    simp [dequeue, hpos, h]
  · intro fragmentSize capacity isStereo hpos
    simp only [construct, ne_eq, Option.some.injEq]
    intro he
    have hss : 0 < (if isStereo then 2 else 1) := by
      split <;> norm_num
    have hlt : capacity * (if isStereo then 2 else 1) * fragmentSize <
        (capacity + 1) * (if isStereo then 2 else 1) * fragmentSize := by
      apply Nat.mul_lt_mul_of_lt_of_le _ (le_refl fragmentSize) hpos
      apply Nat.mul_lt_mul_of_lt_of_le _ (le_refl _) hss
      omega
    omega

/-- Witness for C9 (amended) on a concrete fresh queue: the enqueue-side
bootstrap hands out fragment 4, the dequeue-side bootstrap swaps in fragment 8
and returns the queued fragment, a second bootstrap enqueue throws, and the
two reserved fragments differ. -/
theorem c9_bootstrap_fragments_witness :
    enqueue (construct 4 1 false) none = .ok (4, c9afterBootstrap) ∧
    dequeue c9afterFill none = .ok (some 999, c9afterDrain) ∧
    enqueue c9afterBootstrap none = .error enqueueEmptyMsg ∧
    (construct 4 1 false).firstFragmentForEnqueue ≠
      (construct 4 1 false).firstFragmentForDequeue := by
  refine ⟨?_, ?_, ?_, ?_⟩
  · exact (c9_bootstrap_fragments (construct 4 1 false) 4).1 (by rfl)
  · have h := (c9_bootstrap_fragments c9afterFill 8).2.2.1 (by decide) (by rfl)
    simpa using h
  · exact (c9_bootstrap_fragments c9afterBootstrap 0).2.1 (by rfl)
  · exact (c9_bootstrap_fragments (construct 4 1 false) 0).2.2.2.2 4 1 false (by norm_num)

end AudioQueue


/-! ## M6502 theorems (claims C1 and C2) -/

namespace M6502

theorem updateMem_ne (m : Nat → Nat) (a v x : Nat) (h : x ≠ a) :
    updateMem m a v x = m x := by
  simp [updateMem, h]

/-- C1 counterexample: at PC = 0x1234 the three bytes pushed by the maskable
interrupt handler are 0x12, 0x33, 0x22 — the second byte is the low byte of
PC - 1 (0x33), not the program counter low byte 0x34, so the handler does not
push the (PC high, PC low, status) bytes the claim states. -/
theorem c1_counterexample :
    (interruptHandler c1state).fst.map Prod.snd = [0x12, 0x33, 0x22] ∧
    c1state.PC % 256 = 0x34 ∧ (0x33 : Nat) ≠ 0x34 := by
  refine ⟨?_, by decide, by decide⟩
  rfl

/-- C1 (amended): for a state with a well-formed stack pointer, handling a
pending interrupt at an instruction boundary pushes exactly three bytes in
order — the high byte of PC-1, the low byte of PC-1 (16-bit wrap), and the
status byte with the B bit (0x10) cleared — at 0x0100+SP downwards,
decrementing SP by 3 (mod 256); it then sets PC to the 16-bit value read from
0xFFFE/0xFFFF for a maskable interrupt (taken only when the I flag is clear,
which the handler then sets) or 0xFFFA/0xFFFB for a non-maskable one; a
pending maskable interrupt with I set (and no NMI) pushes nothing and only
clears the interrupt request bits. -/
theorem c1_interrupt_pushes (s : State) (hSP : s.SP < 256) :
    (s.maskableInterrupt = true → s.flagI = false →
      (interruptHandler s).fst =
        [(0x0100 + s.SP, (((s.PC + 0xFFFF) % 0x10000) >>> 8) % 256),
         (0x0100 + (s.SP + 255) % 256, ((s.PC + 0xFFFF) % 0x10000) &&& 0x00FF),
         (0x0100 + (s.SP + 254) % 256, s.PS &&& 0xEF)] ∧
      (interruptHandler s).snd.PC =
        (s.mem 0xFFFE % 256) ||| ((s.mem 0xFFFF % 256) <<< 8) ∧
      (interruptHandler s).snd.SP = (s.SP + 253) % 256 ∧
      (interruptHandler s).snd.flagI = true ∧
      (interruptHandler s).snd.flagD = false) ∧
    (s.nonmaskableInterrupt = true → ¬ (s.maskableInterrupt = true ∧ s.flagI = false) →
      (interruptHandler s).fst =
        [(0x0100 + s.SP, (((s.PC + 0xFFFF) % 0x10000) >>> 8) % 256),
         (0x0100 + (s.SP + 255) % 256, ((s.PC + 0xFFFF) % 0x10000) &&& 0x00FF),
         (0x0100 + (s.SP + 254) % 256, s.PS &&& 0xEF)] ∧
      (interruptHandler s).snd.PC =
        (s.mem 0xFFFA % 256) ||| ((s.mem 0xFFFB % 256) <<< 8) ∧
      (interruptHandler s).snd.SP = (s.SP + 253) % 256 ∧
      (interruptHandler s).snd.flagI = s.flagI ∧
      (interruptHandler s).snd.flagD = false) ∧
    (s.maskableInterrupt = true → s.flagI = true → s.nonmaskableInterrupt = false →
      (interruptHandler s).fst = [] ∧
      (interruptHandler s).snd =
        { s with maskableInterrupt := false, nonmaskableInterrupt := false }) := by
  have hne1 : (0xFFFE : Nat) ≠ 0x0100 + (s.SP + 254) % 256 := by omega
  have hne2 : (0xFFFE : Nat) ≠ 0x0100 + (s.SP + 255) % 256 := by omega
  have hne3 : (0xFFFE : Nat) ≠ 0x0100 + s.SP := by omega
  have hne4 : (0xFFFF : Nat) ≠ 0x0100 + (s.SP + 254) % 256 := by omega
  have hne5 : (0xFFFF : Nat) ≠ 0x0100 + (s.SP + 255) % 256 := by omega
  have hne6 : (0xFFFF : Nat) ≠ 0x0100 + s.SP := by omega
  have hne7 : (0xFFFA : Nat) ≠ 0x0100 + (s.SP + 254) % 256 := by omega
  have hne8 : (0xFFFA : Nat) ≠ 0x0100 + (s.SP + 255) % 256 := by omega
  have hne9 : (0xFFFA : Nat) ≠ 0x0100 + s.SP := by omega
  have hne10 : (0xFFFB : Nat) ≠ 0x0100 + (s.SP + 254) % 256 := by omega
  have hne11 : (0xFFFB : Nat) ≠ 0x0100 + (s.SP + 255) % 256 := by omega
  have hne12 : (0xFFFB : Nat) ≠ 0x0100 + s.SP := by omega
  refine ⟨?_, ?_, ?_⟩
  · intro hm hI
    have hcond : s.maskableInterrupt = true ∧ s.flagI = false := ⟨hm, hI⟩
    unfold interruptHandler
    rw [if_pos hcond]
    refine ⟨rfl, ?_, rfl, rfl, rfl⟩
    show (updateMem (updateMem (updateMem s.mem _ _) _ _) _ _) 0xFFFE % 256 |||
        ((updateMem (updateMem (updateMem s.mem _ _) _ _) _ _) 0xFFFF % 256) <<< 8 = _
    rw [updateMem_ne _ _ _ _ hne1, updateMem_ne _ _ _ _ hne2, updateMem_ne _ _ _ _ hne3,
      updateMem_ne _ _ _ _ hne4, updateMem_ne _ _ _ _ hne5, updateMem_ne _ _ _ _ hne6]
  · intro hn hnm
    unfold interruptHandler
    rw [if_neg hnm, if_pos hn]
    refine ⟨rfl, ?_, rfl, rfl, rfl⟩
    show (updateMem (updateMem (updateMem s.mem _ _) _ _) _ _) 0xFFFA % 256 |||
        ((updateMem (updateMem (updateMem s.mem _ _) _ _) _ _) 0xFFFB % 256) <<< 8 = _
    rw [updateMem_ne _ _ _ _ hne7, updateMem_ne _ _ _ _ hne8, updateMem_ne _ _ _ _ hne9,
      updateMem_ne _ _ _ _ hne10, updateMem_ne _ _ _ _ hne11, updateMem_ne _ _ _ _ hne12]
  · intro hm hI hn
    have hnm : ¬ (s.maskableInterrupt = true ∧ s.flagI = false) := by
      simp [hI]
    unfold interruptHandler
    rw [if_neg hnm, if_neg (by simp [hn])]
    exact ⟨rfl, rfl⟩

/-- Witness for C1 (amended) at the concrete state `c1state`. -/
theorem c1_interrupt_pushes_witness :
    (interruptHandler c1state).fst = [(0x1FD, 0x12), (0x1FC, 0x33), (0x1FB, 0x22)] ∧
    (interruptHandler c1state).snd.SP = 0xFA ∧
    (interruptHandler c1state).snd.PC = 0 ∧
    (interruptHandler c1state).snd.flagI = true := by
  have h := (c1_interrupt_pushes c1state (by decide)).1 rfl rfl
  refine ⟨?_, ?_, ?_, h.2.2.2.1⟩
  · rw [h.1]
    rfl
  · rw [h.2.2.1]
    decide
  · rw [h.2.1]
    decide

/-- C2: for every dispatch table, every positive cycle budget and loop fuel,
if the opcode fetched at the entry program counter is not in the table, then
execute halts immediately: the returned result is fatal (not a success) and
carries the message "invalid instruction", and no instruction is successfully
dispatched in that call. -/
theorem c2_invalid_opcode_fatal (table : Nat → Option Instr) (s : State)
    (budget fuel : Nat) (hb : 0 < budget) (hf : 0 < fuel)
    (hinv : table (s.mem s.PC % 256) = none) :
    (execute table budget fuel s).fst.status = DispatchStatus.fatal ∧
    (execute table budget fuel s).fst.isSuccess = false ∧
    (execute table budget fuel s).fst.message = invalidInstructionMsg ∧
    (execute table budget fuel s).snd.snd = 0 := by
  obtain ⟨f, rfl⟩ : ∃ f, fuel = f + 1 := ⟨fuel - 1, by omega⟩
  obtain ⟨b, rfl⟩ : ∃ b, budget = b + 1 := ⟨budget - 1, by omega⟩
  refine ⟨?_, ?_, ?_, ?_⟩ <;>
    simp [execute, execOuter, execWhile, fetchDispatch, peek, handleHalt,
      anyExecutionStatus, SYSTEM_CYCLES_PER_CPU, hinv, initialResult,
      DispatchResult.setFatal, DispatchResult.setMessage, DispatchResult.isSuccess]

/-- Witness for C2: a table with no entries, the zeroed state, budget 1 and
fuel 1. -/
theorem c2_invalid_opcode_fatal_witness :
    (execute (fun _ => none) 1 1 c2state).fst.status = DispatchStatus.fatal ∧
    (execute (fun _ => none) 1 1 c2state).fst.isSuccess = false ∧
    (execute (fun _ => none) 1 1 c2state).fst.message = invalidInstructionMsg ∧
    (execute (fun _ => none) 1 1 c2state).snd.snd = 0 :=
  c2_invalid_opcode_fatal (fun _ => none) c2state 1 1 (by norm_num) (by norm_num) rfl

end M6502


/-! ## CartridgeMNetwork theorems (claim C8) -/

namespace CartridgeMNetwork

theorem bank_preserves (s : State) (b : Nat) :
    (bank s b).snd.currentSlice1 = s.currentSlice1 ∧
    (bank s b).snd.ramSlice = s.ramSlice ∧
    (bank s b).snd.mySize = s.mySize := by
  unfold bank
  split <;> exact ⟨rfl, rfl, rfl⟩

theorem bankRAM_preserves (s : State) (b : Nat) :
    (bankRAM s b).currentSlice1 = s.currentSlice1 ∧
    (bankRAM s b).ramSlice = s.ramSlice ∧
    (bankRAM s b).mySize = s.mySize := by
  unfold bankRAM
  split <;> exact ⟨rfl, rfl, rfl⟩

theorem checkSwitchBank_preserves (s : State) (a : Nat) :
    (checkSwitchBank s a).currentSlice1 = s.currentSlice1 ∧
    (checkSwitchBank s a).ramSlice = s.ramSlice ∧
    (checkSwitchBank s a).mySize = s.mySize := by
  unfold checkSwitchBank
  split
  · exact bank_preserves s _
  · split
    · exact bank_preserves s _
    · split
      · exact bankRAM_preserves s _
      · exact ⟨rfl, rfl, rfl⟩

theorem peek_snd (s : State) (a : Nat) :
    (peek s a).snd = checkSwitchBank s (a &&& 0x0FFF) := by
  unfold peek
  dsimp only
  split
  · rfl
  · split <;> rfl

theorem poke_preserves (s : State) (a v : Nat) :
    (poke s a v).snd.currentSlice1 = s.currentSlice1 ∧
    (poke s a v).snd.ramSlice = s.ramSlice ∧
    (poke s a v).snd.mySize = s.mySize := by
  have h := checkSwitchBank_preserves s (a &&& 0x0FFF)
  unfold poke
  dsimp only
  split
  · exact h
  · split
    · exact h
    · exact h

theorem applyOp_preserves (s : State) (op : Op) :
    (applyOp s op).currentSlice1 = s.currentSlice1 ∧
    (applyOp s op).ramSlice = s.ramSlice ∧
    (applyOp s op).mySize = s.mySize := by
  cases op with
  | bankOp n => exact bank_preserves s n
  | bankRAMOp n => exact bankRAM_preserves s n
  | peekOp a =>
    have h := checkSwitchBank_preserves s (a &&& 0x0FFF)
    have hp := peek_snd s a
    refine ⟨?_, ?_, ?_⟩
    · show (peek s a).snd.currentSlice1 = s.currentSlice1
      rw [hp]
      exact h.1
    · show (peek s a).snd.ramSlice = s.ramSlice
      rw [hp]
      exact h.2.1
    · show (peek s a).snd.mySize = s.mySize
      rw [hp]
      exact h.2.2
  | pokeOp a v => exact poke_preserves s a v

theorem applyOps_preserves (ops : List Op) : ∀ s : State,
    (applyOps s ops).currentSlice1 = s.currentSlice1 ∧
    (applyOps s ops).ramSlice = s.ramSlice ∧
    (applyOps s ops).mySize = s.mySize := by
  induction ops with
  | nil => exact fun s => ⟨rfl, rfl, rfl⟩
  | cons op rest ih =>
    intro s
    have h1 := applyOp_preserves s op
    have h2 := ih (applyOp s op)
    exact ⟨h2.1.trans h1.1, h2.2.1.trans h1.2.1, h2.2.2.trans h1.2.2⟩

theorem install_slice1 (s : State) (k : Nat) :
    (install s k).currentSlice1 = s.ramSlice ∧
    (install s k).ramSlice = s.ramSlice ∧
    (install s k).mySize = s.mySize := by
  have hb := bankRAM_preserves { s with currentSlice1 := s.ramSlice } 0
  have hc := bank_preserves (bankRAM { s with currentSlice1 := s.ramSlice } 0) k
  exact ⟨hc.1.trans hb.1, hc.2.1.trans hb.2.1, hc.2.2.trans hb.2.2⟩

/-- C8: in the segmented M-Network scheme, after install (on an initialized
cartridge, whose RAM slice index is `bankCount() - 1`) and any sequence of
bank, bankRAM, peek and poke operations, the recorded slice for segment 1
still equals `bankCount() - 1`; `currentBank` (`getBank`) for any address in
the upper 2K returns that last slice index; and a bank switch never changes
the segment-1 slice (only segment 0). -/
theorem c8_fixed_upper_segment (s0 : State) (startB : Nat) (ops : List Op)
    (hinit : s0.ramSlice = bankCount s0 - 1) :
    (applyOps (install s0 startB) ops).currentSlice1 =
      bankCount (applyOps (install s0 startB) ops) - 1 ∧
    (∀ addr, 0x0800 ≤ addr &&& 0x0FFF →
      getBank (applyOps (install s0 startB) ops) addr =
        bankCount (applyOps (install s0 startB) ops) - 1) ∧
    (∀ (s : State) (b : Nat), (bank s b).snd.currentSlice1 = s.currentSlice1) := by
  have hI := install_slice1 s0 startB
  have hP := applyOps_preserves ops (install s0 startB)
  have hs1 : (applyOps (install s0 startB) ops).currentSlice1 = s0.ramSlice :=
    hP.1.trans hI.1
  have hms : (applyOps (install s0 startB) ops).mySize = s0.mySize :=
    hP.2.2.trans hI.2.2
  have hbc : bankCount (applyOps (install s0 startB) ops) = bankCount s0 := by
    unfold bankCount
    rw [hms]
  refine ⟨?_, ?_, ?_⟩
  · rw [hs1, hbc, hinit]
  · intro addr haddr
    have hle : addr &&& 0xFFF ≤ 0xFFF := Nat.and_le_right
    have hne : ¬ ((addr &&& 0xFFF) >>> 11 = 0) := by
      rw [Nat.shiftRight_eq_div_pow]
      omega
    unfold getBank
    rw [if_neg hne, hs1, hbc, hinit]
  · intro s b
    exact (bank_preserves s b).1

/-- Witness for C8 on a concrete 16K cartridge (eight 2K slices, RAM slice 7)
with a bank switch, a hotspot peek, a RAM poke and a RAM-bank switch. -/
theorem c8_fixed_upper_segment_witness :
    (applyOps (install mnet8state 0) c8ops).currentSlice1 = 7 ∧
    getBank (applyOps (install mnet8state 0) c8ops) 0x1900 = 7 := by
  have h := c8_fixed_upper_segment mnet8state 0 c8ops (by decide)
  constructor
  · rw [h.1]
    decide
  · rw [h.2.1 0x1900 (by decide)]
    decide

theorem checkSwitchBank_bankChanged (s : State) (b : Bool) (a : Nat) :
    (checkSwitchBank { s with bankChanged := b } a).currentSlice0 =
      (checkSwitchBank s a).currentSlice0 ∧
    (checkSwitchBank { s with bankChanged := b } a).currentSlice1 =
      (checkSwitchBank s a).currentSlice1 ∧
    (checkSwitchBank { s with bankChanged := b } a).ramSlice =
      (checkSwitchBank s a).ramSlice ∧
    (checkSwitchBank { s with bankChanged := b } a).currentRAM =
      (checkSwitchBank s a).currentRAM ∧
    (checkSwitchBank { s with bankChanged := b } a).ram =
      (checkSwitchBank s a).ram ∧
    ∀ n, (checkSwitchBank { s with bankChanged := b } a).image n =
      (checkSwitchBank s a).image n := by
  unfold checkSwitchBank bank bankRAM
  dsimp only
  repeat' split
  all_goals exact ⟨rfl, rfl, rfl, rfl, rfl, fun n => rfl⟩

theorem peek_fst_bankChanged (s : State) (b : Bool) (a : Nat) :
    (peek { s with bankChanged := b } a).fst = (peek s a).fst := by
  obtain ⟨h1, h2, h3, h4, h5, h6⟩ := checkSwitchBank_bankChanged s b (a &&& 0x0FFF)
  unfold peek
  dsimp only
  simp only [apply_ite Prod.fst]
  rw [h1, h2, h3, h4, h5, h6]

/-- The M-Network save/load round trip: for an unlocked cartridge with its
2K of RAM, load(save(s)) restores every persisted field and re-installs the
same banks, leaving the state unchanged up to the bank-changed flag. -/
theorem mnet_roundtrip (s : State) (hlock : s.bankLocked = false)
    (hram : s.ram.length = RAM_SIZE) :
    load s (save s) = some { s with bankChanged := true } := by
  have hstep : load s (save s) =
      if s.ram.length = RAM_SIZE then
        some (bank (bankRAM s s.currentRAM) s.currentSlice0).snd
      else none := rfl
  rw [hstep, if_pos hram]
  simp only [bankRAM, bank, hlock, Bool.false_eq_true, if_false]

end CartridgeMNetwork

/-! ## Cartridge3EPlus theorems (parts of claims C5, C6, C7) -/

namespace Cartridge3EPlus

theorem initSlot_id (s : State) (b : Nat) (hlen : s.bankInUse.length = 8) (hb : b < 8)
    (hcons : lget s.bankInUse b = BANK_UNDEFINED ∨ slotIndex (lget s.bankInUse b) = b) :
    initSlot s b = s := by
  unfold initSlot
  by_cases hu : lget s.bankInUse b = BANK_UNDEFINED
  · rw [if_pos hu]
  · rw [if_neg hu]
    have h : slotIndex (lget s.bankInUse b) = b := hcons.resolve_left hu
    split
    · show bankRAMSlot s (lget s.bankInUse b) = s
      unfold bankRAMSlot
      rw [h, lset_lget _ _ (by omega)]
    · show bankROMSlot s (lget s.bankInUse b) = s
      unfold bankROMSlot
      rw [h, lset_lget _ _ (by omega)]

theorem initializeBankState_id (s : State) (hlen : s.bankInUse.length = 8)
    (hcons : ∀ b, b < 8 → lget s.bankInUse b = BANK_UNDEFINED ∨
      slotIndex (lget s.bankInUse b) = b) :
    initializeBankState s = s := by
  show List.foldl initSlot s (List.range 8) = s
  have h8 : List.range 8 = [0, 1, 2, 3, 4, 5, 6, 7] := rfl
  rw [h8]
  simp only [List.foldl_cons, List.foldl_nil]
  rw [initSlot_id s 0 hlen (by norm_num) (hcons 0 (by norm_num)),
    initSlot_id s 1 hlen (by norm_num) (hcons 1 (by norm_num)),
    initSlot_id s 2 hlen (by norm_num) (hcons 2 (by norm_num)),
    initSlot_id s 3 hlen (by norm_num) (hcons 3 (by norm_num)),
    initSlot_id s 4 hlen (by norm_num) (hcons 4 (by norm_num)),
    initSlot_id s 5 hlen (by norm_num) (hcons 5 (by norm_num)),
    initSlot_id s 6 hlen (by norm_num) (hcons 6 (by norm_num)),
    initSlot_id s 7 hlen (by norm_num) (hcons 7 (by norm_num))]

/-- The 3E+ save/load round trip: with a well-formed bank-in-use table (each
entry undefined or recording its own slot, the invariant the slot functions
maintain), load(save(s)) re-derives the identical table and leaves the state
unchanged. -/
theorem e3p_roundtrip (s : State) (hlen : s.bankInUse.length = 8)
    (hram : s.ram.length = RAM_TOTAL_SIZE)
    (hcons : ∀ b, b < 8 → lget s.bankInUse b = BANK_UNDEFINED ∨
      slotIndex (lget s.bankInUse b) = b) :
    load s (save s) = some s := by
  have hstep : load s (save s) =
      if s.bankInUse.length = 8 ∧ s.ram.length = RAM_TOTAL_SIZE then
        some (initializeBankState s)
      else none := rfl
  rw [hstep, if_pos ⟨hlen, hram⟩, initializeBankState_id s hlen hcons]

end Cartridge3EPlus

/-! ## CartridgeDPCPlus theorems (claims C5, C6, C7, C10) -/

namespace CartridgeDPCPlus

theorem updateMusic_bankChanged (c : Nat) (s : State) (b : Bool) :
    ((updateMusicModeDataFetchers c { s with bankChanged := b }).musicCounters =
      (updateMusicModeDataFetchers c s).musicCounters) ∧
    ((updateMusicModeDataFetchers c { s with bankChanged := b }).musicWaveforms =
      (updateMusicModeDataFetchers c s).musicWaveforms) ∧
    ((updateMusicModeDataFetchers c { s with bankChanged := b }).dpcRAM =
      (updateMusicModeDataFetchers c s).dpcRAM) := by
  unfold updateMusicModeDataFetchers
  dsimp only
  repeat' split
  all_goals exact ⟨rfl, rfl, rfl⟩

theorem dpc_peek_fst_bankChanged (c : Nat) (s : State) (b : Bool) (a : Nat) :
    (peek c { s with bankChanged := b } a).fst = (peek c s a).fst := by
  obtain ⟨h1, h2, h3⟩ := updateMusic_bankChanged c { s with ldaImmediate := false } b
  unfold peek
  dsimp only
  simp only [apply_ite Prod.fst]
  rw [h1, h2, h3]

/-- The DPC+ save/load round trip: for an unlocked cartridge in a reachable
state (bank offset a 16-bit multiple of 4K; arrays of their declared sizes),
load(save(s)) restores every persisted field and re-enters the same bank,
leaving the state unchanged up to the bank-changed flag. -/
theorem dpc_roundtrip (s : State) (hlock : s.bankLocked = false)
    (hbo : s.bankOffset < 65536) (hba : (s.bankOffset >>> 12) <<< 12 = s.bankOffset)
    (h1 : s.dpcRAM.length = 8192) (h2 : s.tops.length = 8) (h3 : s.bottoms.length = 8)
    (h4 : s.counters.length = 8) (h5 : s.fractionalCounters.length = 8)
    (h6 : s.fractionalIncrements.length = 8) (h7 : s.parameter.length = 8)
    (h8 : s.musicCounters.length = 3) (h9 : s.musicFrequencies.length = 3)
    (h10 : s.musicWaveforms.length = 3) :
    load s (save s) = some { s with bankChanged := true } := by
  have hstep : load s (save s) =
      if s.dpcRAM.length = 8192 ∧ s.tops.length = 8 ∧ s.bottoms.length = 8 ∧
          s.counters.length = 8 ∧ s.fractionalCounters.length = 8 ∧
          s.fractionalIncrements.length = 8 ∧ s.parameter.length = 8 ∧
          s.musicCounters.length = 3 ∧ s.musicFrequencies.length = 3 ∧
          s.musicWaveforms.length = 3 then
        some (bank { s with bankOffset := s.bankOffset % 65536 }
          ((s.bankOffset % 65536) >>> 12)).snd
      else none := rfl
  rw [hstep, if_pos ⟨h1, h2, h3, h4, h5, h6, h7, h8, h9, h10⟩, Nat.mod_eq_of_lt hbo]
  simp only [bank, hlock, Bool.false_eq_true, if_false]
  rw [hba]

/-- C10: while the DPC+ cartridge is bank-locked, peek at any address returns
the ROM byte of the currently selected bank at that address and changes no
cartridge state at all: no hotspot bank switch, no data-fetcher update, no
random-number-generator clocking, and no fast-fetch flag change. -/
theorem c10_dpc_peek_locked (s : State) (cyc a : Nat) (h : s.bankLocked = true) :
    peek cyc s a = (s.rom (s.bankOffset + (a &&& 0x0FFF)) % 256, s) := by
  unfold peek
  rw [if_pos h]

/-- Witness for C10 on a concrete locked DPC+ cartridge at the bank hotspot
address 0xFF6 (which would switch banks if the cartridge were unlocked). -/
theorem c10_dpc_peek_locked_witness :
    peek 0 dpcLockedState 0x0FF6 =
      (dpcLockedState.rom (dpcLockedState.bankOffset + (0x0FF6 &&& 0x0FFF)) % 256,
        dpcLockedState) :=
  c10_dpc_peek_locked dpcLockedState 0 0x0FF6 rfl

end CartridgeDPCPlus

/-! ## Cross-scheme claim theorems (C5, C6, C7) -/

/-- C5: for each cartridge scheme under src (M-Network, 3E+, DPC+), loading
the stream produced by save from any reachable internal state fully
reconstructs the bank state: the load re-derives page mappings (slice,
sub-bank and RAM-bank assignments, bank offset) identical to those in effect
at save time — the state after load equals the saved one up to the
bank-changed bookkeeping flag — so subsequent peeks return the same bytes. -/
theorem c5_save_load_roundtrip :
    (∀ s : CartridgeMNetwork.State, s.bankLocked = false →
      s.ram.length = CartridgeMNetwork.RAM_SIZE →
      CartridgeMNetwork.load s (CartridgeMNetwork.save s) =
        some { s with bankChanged := true } ∧
      ∀ a, (CartridgeMNetwork.peek { s with bankChanged := true } a).fst =
        (CartridgeMNetwork.peek s a).fst) ∧
    (∀ s : Cartridge3EPlus.State, s.bankInUse.length = 8 →
      s.ram.length = Cartridge3EPlus.RAM_TOTAL_SIZE →
      (∀ b, b < 8 → lget s.bankInUse b = Cartridge3EPlus.BANK_UNDEFINED ∨
        Cartridge3EPlus.slotIndex (lget s.bankInUse b) = b) →
      Cartridge3EPlus.load s (Cartridge3EPlus.save s) = some s) ∧
    (∀ s : CartridgeDPCPlus.State, s.bankLocked = false → s.bankOffset < 65536 →
      (s.bankOffset >>> 12) <<< 12 = s.bankOffset →
      s.dpcRAM.length = 8192 → s.tops.length = 8 → s.bottoms.length = 8 →
      s.counters.length = 8 → s.fractionalCounters.length = 8 →
      s.fractionalIncrements.length = 8 → s.parameter.length = 8 →
      s.musicCounters.length = 3 → s.musicFrequencies.length = 3 →
      s.musicWaveforms.length = 3 →
      CartridgeDPCPlus.load s (CartridgeDPCPlus.save s) =
        some { s with bankChanged := true } ∧
      ∀ cyc a, (CartridgeDPCPlus.peek cyc { s with bankChanged := true } a).fst =
        (CartridgeDPCPlus.peek cyc s a).fst) := by
  refine ⟨?_, ?_, ?_⟩
  · intro s hlock hram
    exact ⟨CartridgeMNetwork.mnet_roundtrip s hlock hram,
      fun a => CartridgeMNetwork.peek_fst_bankChanged s true a⟩
  · intro s hlen hram hcons
    exact Cartridge3EPlus.e3p_roundtrip s hlen hram hcons
  · intro s hlock hbo hba h1 h2 h3 h4 h5 h6 h7 h8 h9 h10
    exact ⟨CartridgeDPCPlus.dpc_roundtrip s hlock hbo hba h1 h2 h3 h4 h5 h6 h7 h8 h9 h10,
      fun cyc a => CartridgeDPCPlus.dpc_peek_fst_bankChanged cyc s true a⟩

/-- Witness for C5 on the three concrete cartridge states. -/
theorem c5_save_load_roundtrip_witness :
    CartridgeMNetwork.load CartridgeMNetwork.mnet8state
        (CartridgeMNetwork.save CartridgeMNetwork.mnet8state) =
      some { CartridgeMNetwork.mnet8state with bankChanged := true } ∧
    Cartridge3EPlus.load e3pBaseState (Cartridge3EPlus.save e3pBaseState) =
      some e3pBaseState ∧
    CartridgeDPCPlus.load CartridgeDPCPlus.dpcBaseState
        (CartridgeDPCPlus.save CartridgeDPCPlus.dpcBaseState) =
      some { CartridgeDPCPlus.dpcBaseState with bankChanged := true } := by
  refine ⟨?_, ?_, ?_⟩
  · exact (c5_save_load_roundtrip.1 CartridgeMNetwork.mnet8state rfl
      (by show (List.replicate 2048 0).length = _; rw [List.length_replicate]; rfl)).1
  · exact c5_save_load_roundtrip.2.1 e3pBaseState (by decide)
      (by show (List.replicate 4096 0).length = _; rw [List.length_replicate]; rfl)
      (by intro b hb; interval_cases b <;> decide)
  · exact (c5_save_load_roundtrip.2.2 CartridgeDPCPlus.dpcBaseState rfl (by decide)
      (by decide)
      (by show (List.replicate 8192 0).length = _; rw [List.length_replicate])
      (by decide) (by decide)
      (by decide) (by decide) (by decide) (by decide) (by decide) (by decide)
      (by decide)).1

/-- C6: for each cartridge scheme, calling a bank-switch operation while the
cartridge is locked is a silent no-op: it returns the unchanged/false result,
raises no error, and leaves all cartridge state exactly as it was. -/
theorem c6_bank_switch_locked_noop :
    (∀ (s : CartridgeDPCPlus.State) (b : Nat), s.bankLocked = true →
      CartridgeDPCPlus.bank s b = (false, s)) ∧
    (∀ (s : CartridgeMNetwork.State) (b : Nat), s.bankLocked = true →
      CartridgeMNetwork.bank s b = (false, s) ∧ CartridgeMNetwork.bankRAM s b = s) ∧
    (∀ (s : Cartridge3EPlus.State) (b : Nat), s.bankLocked = true →
      Cartridge3EPlus.bankROM s b = (false, s) ∧
      Cartridge3EPlus.bankRAM s b = (false, s)) := by
  refine ⟨?_, ?_, ?_⟩
  · intro s b h
    simp [CartridgeDPCPlus.bank, h]
  · intro s b h
    constructor
    · simp [CartridgeMNetwork.bank, h]
    · simp [CartridgeMNetwork.bankRAM, h]
  · intro s b h
    constructor
    · simp [Cartridge3EPlus.bankROM, h]
    · simp [Cartridge3EPlus.bankRAM, h]

/-- Witness for C6 on concrete locked cartridges of the three schemes. -/
theorem c6_bank_switch_locked_noop_witness :
    CartridgeDPCPlus.bank CartridgeDPCPlus.dpcLockedState 0 =
      (false, CartridgeDPCPlus.dpcLockedState) ∧
    CartridgeMNetwork.bank mnetLockedState 1 = (false, mnetLockedState) ∧
    Cartridge3EPlus.bankROM e3pLockedState 2 = (false, e3pLockedState) := by
  refine ⟨?_, ?_, ?_⟩
  · exact c6_bank_switch_locked_noop.1 CartridgeDPCPlus.dpcLockedState 0 rfl
  · exact (c6_bank_switch_locked_noop.2.1 mnetLockedState 1 rfl).1
  · exact (c6_bank_switch_locked_noop.2.2 e3pLockedState 2 rfl).1

/-- C7 counterexample: poking the DPC+ bank-switch hotspot 0x0FF6 from bank 5
switches the mapping to bank 0 — the device changes — yet poke returns false,
refuting "poke returns true iff the poke changed the device". -/
theorem c7_counterexample :
    (CartridgeDPCPlus.poke (fun s => s) 0 CartridgeDPCPlus.dpcBaseState 0x0FF6 0).fst =
      false ∧
    (CartridgeDPCPlus.poke (fun s => s) 0 CartridgeDPCPlus.dpcBaseState 0x0FF6 0).snd.bankOffset
      = 0 ∧
    CartridgeDPCPlus.dpcBaseState.bankOffset = 0x5000 ∧ (0 : Nat) ≠ 0x5000 := by
  refine ⟨rfl, rfl, rfl, by decide⟩

/-- C7 (amended): the M-Network poke returns true exactly when it writes RAM
(a hotspot-triggered bank switch still returns false); the 3E+ poke at
cartridge-space addresses returns true exactly when the addressed 512B
sub-bank is RAM-mapped; but the DPC+ poke always returns false, even when it
changes registers or switches banks. -/
theorem c7_poke_change_reporting :
    (∀ (thumb : CartridgeDPCPlus.State → CartridgeDPCPlus.State) (cyc : Nat)
        (s : CartridgeDPCPlus.State) (a v : Nat),
      (CartridgeDPCPlus.poke thumb cyc s a v).fst = false) ∧
    (∀ (s : CartridgeMNetwork.State) (a v : Nat),
      ((CartridgeMNetwork.poke s a v).fst = true ↔
        (((CartridgeMNetwork.checkSwitchBank s (a &&& 0x0FFF)).currentSlice0 =
            (CartridgeMNetwork.checkSwitchBank s (a &&& 0x0FFF)).ramSlice ∧
          a &&& 0x0FFF < CartridgeMNetwork.BANK_SIZE / 2) ∨
        (0x0800 ≤ a &&& 0x0FFF ∧ a &&& 0x0FFF ≤ 0x08FF)))) ∧
    (∀ (tiaPoke : Nat → Nat → Bool) (s : Cartridge3EPlus.State) (a v : Nat),
      a &&& 0x1000 ≠ 0 →
      ((Cartridge3EPlus.poke s tiaPoke a v).fst = true ↔
        lget s.bankInUse ((a >>> Cartridge3EPlus.RAM_BANK_TO_POWER) &&& 7) &&&
          Cartridge3EPlus.BITMASK_ROMRAM ≠ 0)) := by
  refine ⟨?_, ?_, ?_⟩
  · intro thumb cyc s a v
    exact (apply_ite Prod.fst _ _ _).trans (ite_self false)
  · intro s a v
    unfold CartridgeMNetwork.poke
    by_cases h1 : (CartridgeMNetwork.checkSwitchBank s (a &&& 0x0FFF)).currentSlice0 =
        (CartridgeMNetwork.checkSwitchBank s (a &&& 0x0FFF)).ramSlice ∧
        a &&& 0x0FFF < CartridgeMNetwork.BANK_SIZE / 2
    · simp [h1]
    · by_cases h2 : 0x0800 ≤ a &&& 0x0FFF ∧ a &&& 0x0FFF ≤ 0x08FF
      · simp [h1, h2]
      · simp [h1, h2]
  · intro tiaPoke s a v h
    have h1 : a ≠ Cartridge3EPlus.BANK_SWITCH_HOTSPOT_RAM := fun he => h (by rw [he]; decide)
    have h2 : a ≠ Cartridge3EPlus.BANK_SWITCH_HOTSPOT_ROM := fun he => h (by rw [he]; decide)
    unfold Cartridge3EPlus.poke
    rw [if_neg h1, if_neg h2, if_neg h]
    by_cases h3 : lget s.bankInUse ((a >>> Cartridge3EPlus.RAM_BANK_TO_POWER) &&& 7) &&&
        Cartridge3EPlus.BITMASK_ROMRAM ≠ 0
    · simp [h3]
    · simp [h3]

/-- Witness for C7 (amended): the DPC+ hotspot poke reports false, an
M-Network hotspot poke reports false, and a 3E+ write into its RAM sub-bank
reports true. -/
theorem c7_poke_change_reporting_witness :
    (CartridgeDPCPlus.poke (fun s => s) 0 CartridgeDPCPlus.dpcBaseState 0x0FF6 0).fst =
      false ∧
    (CartridgeMNetwork.poke CartridgeMNetwork.mnet8state 0x1FE0 5).fst = false ∧
    (Cartridge3EPlus.poke e3pBaseState (fun _ _ => false) 0x1400 9).fst = true := by
  refine ⟨?_, ?_, ?_⟩
  · exact c7_poke_change_reporting.1 (fun s => s) 0 CartridgeDPCPlus.dpcBaseState 0x0FF6 0
  · have h := c7_poke_change_reporting.2.1 CartridgeMNetwork.mnet8state 0x1FE0 5
    rw [Bool.eq_false_iff]
    intro hT
    have h2 := h.mp hT
    revert h2
    decide
  · exact (c7_poke_change_reporting.2.2 (fun _ _ => false) e3pBaseState 0x1400 9
      (by decide)).mpr (by decide)
